import Mathlib

/-!
# osgEarth GL object lifetimes and the GPU job arena

A shallow embedding of the resource and job core of `src/osgEarth/GLUtils.cpp`:

* `GLBuffer`, `GLTexture`: wrappers around one device-side name, with their
  constructors, `release`, `handle` and `makeResident`;
* `GLObjectReleaser`: the per-context set of tracked objects with its sweep
  (`operator()` / `flushAllDeletedGLObjects`), `watch` (both builds) and `releaseAll`;
* `GPUJobArena`: the queue of delegates drained under a time slice;

and of `addFeatureToMap` of `src/osgEarthSplat/RoadSurfaceLayer.cpp`, which groups
features by the name of their style.

Device entry points are not executed; every call the code issues is appended to a
log of `GLCall` values.  Objects live in a store indexed by their address, and the
intrusive reference count of `osg::Referenced` is a field of the stored object.
-/

namespace OsgEarth

/-! ## Device calls and GL objects -/

/-- The value `~0U` of a 32-bit `GLuint`: the name of an unallocated or released object. -/
def NO_NAME : Nat := 4294967295

/-- The value `~0ULL` of a `GLuint64`: the bindless handle that is not resolved. -/
def NO_HANDLE : Nat := 18446744073709551615

/-- One call issued to the device (the GL entry points used by `GLUtils.cpp`). -/
inductive GLCall where
  | glGenBuffers
  | glBindBuffer (target name : Nat)
  | glDeleteBuffers (name : Nat)
  | glGenTextures
  | glBindTexture (target name : Nat)
  | glDeleteTextures (name : Nat)
  | glGetTextureHandle (name : Nat)
  | glMakeTextureHandleResident (handle : Nat)
  | glMakeTextureHandleNonResident (handle : Nat)
  | debugObjectLabel (identifier name : Nat) (label : String)
  deriving DecidableEq, Repr

/-- Whether a device call deletes a device object (`glDeleteBuffers` / `glDeleteTextures`). -/
def GLCall.isDelete : GLCall → Bool
  | .glDeleteBuffers _ => true
  | .glDeleteTextures _ => true
  | _ => false

/-- Whether a device call changes bindless residency. -/
def GLCall.isResidency : GLCall → Bool
  | .glMakeTextureHandleResident _ => true
  | .glMakeTextureHandleNonResident _ => true
  | _ => false

/-- Fields of `GLBuffer` (`_target`, `_name`). -/
structure GLBuffer where
  _target : Nat
  _name : Nat
  deriving DecidableEq, Repr

/-- Fields of `GLTexture` (`_target`, `_name`, `_handle`, `_isResident`). -/
structure GLTexture where
  _target : Nat
  _name : Nat
  _handle : Nat
  _isResident : Bool
  deriving DecidableEq, Repr

/-- `GLBuffer::release`: delete the buffer if its name is valid, then invalidate the name.
Returns the buffer afterwards and the device calls issued. -/
def GLBuffer.release (b : GLBuffer) : GLBuffer × List GLCall :=
  if b._name ≠ NO_NAME then
    ({ b with _name := NO_NAME }, [GLCall.glDeleteBuffers b._name])
  else
    (b, [])

/-- `GLTexture::bind`. -/
def GLTexture.bind (t : GLTexture) : List GLCall :=
  [GLCall.glBindTexture t._target t._name]

/-- `GLTexture::makeResident`. -/
def GLTexture.makeResident (t : GLTexture) (toggle : Bool) : GLTexture × List GLCall :=
  let calls :=
    if t._isResident ≠ toggle then
      [GLCall.glMakeTextureHandleResident t._handle]
    else
      [GLCall.glMakeTextureHandleNonResident t._handle]
  ({ t with _isResident := toggle }, calls)

/-- `GLTexture::release`: demote the handle if one was resolved, then delete the texture
if its name is valid. -/
def GLTexture.release (t : GLTexture) : GLTexture × List GLCall :=
  let (t1, c1) :=
    if t._handle ≠ NO_HANDLE then
      ({ t with _handle := NO_HANDLE }, [GLCall.glMakeTextureHandleNonResident t._handle])
    else
      (t, [])
  let (t2, c2) :=
    if t1._name ≠ NO_NAME then
      ({ t1 with _name := NO_NAME }, [GLCall.glDeleteTextures t1._name])
    else
      (t1, [])
  (t2, c1 ++ c2)

/-- The dynamic type of a `GLObject`. -/
inductive GLDerived where
  | buffer (b : GLBuffer)
  | texture (t : GLTexture)
  deriving DecidableEq, Repr

/-- A `GLObject` as stored: the reference count of `osg::Referenced`, the label, the
extensions object `_ext` (given by the identifier of its context, `none` for a null
pointer), and the derived part. -/
structure GLObject where
  _refCount : Nat
  _label : String
  _ext : Option Nat
  derived : GLDerived
  deriving DecidableEq, Repr

/-- The device name of an object of either kind. -/
def GLObject.name (o : GLObject) : Nat :=
  match o.derived with
  | .buffer b => b._name
  | .texture t => t._name

/-- `osg::Referenced::referenceCount`. -/
def GLObject.referenceCount (o : GLObject) : Nat := o._refCount

/-- The virtual `GLObject::release`, dispatched on the dynamic type. -/
def GLObject.release (o : GLObject) : GLObject × List GLCall :=
  match o.derived with
  | .buffer b => ({ o with derived := .buffer b.release.1 }, b.release.2)
  | .texture t => ({ o with derived := .texture t.release.1 }, t.release.2)

/-- The device-delete call that releasing a valid object of this kind and name issues. -/
def GLObject.deleteCall (o : GLObject) : GLCall :=
  match o.derived with
  | .buffer b => GLCall.glDeleteBuffers b._name
  | .texture t => GLCall.glDeleteTextures t._name

/-- Repeated `GLBuffer::release`, accumulating the device calls. -/
def GLBuffer.releaseN : Nat → GLBuffer → GLBuffer × List GLCall
  | 0, b => (b, [])
  | n + 1, b =>
    let r := b.release
    let r2 := GLBuffer.releaseN n r.1
    (r2.1, r.2 ++ r2.2)

/-- Repeated `GLTexture::release`, accumulating the device calls. -/
def GLTexture.releaseN : Nat → GLTexture → GLTexture × List GLCall
  | 0, t => (t, [])
  | n + 1, t =>
    let r := t.release
    let r2 := GLTexture.releaseN n r.1
    (r2.1, r.2 ++ r2.2)

/-! ## The object store and the releaser -/

/-- The object store: the object at each address. -/
abbrev Heap := Nat → GLObject

/-- `osg::Referenced::ref` on the object at address `p`. -/
def Heap.ref (h : Heap) (p : Nat) : Heap :=
  Function.update h p { h p with _refCount := (h p)._refCount + 1 }

/-- `osg::Referenced::unref` on the object at address `p`.  An object whose count reaches
zero is destroyed; its cell is left in the store and no longer referenced. -/
def Heap.unref (h : Heap) (p : Nat) : Heap :=
  Function.update h p { h p with _refCount := (h p)._refCount - 1 }

/-- A set of `osg::ref_ptr<GLObject>`: the addresses it holds, in iteration order.
Inserting an address that is absent takes a reference on the object. -/
def refSetInsert (s : List Nat) (h : Heap) (p : Nat) : List Nat × Heap :=
  if p ∈ s then (s, h) else (s ++ [p], h.ref p)

/-- Clearing a set of `osg::ref_ptr<GLObject>` drops one reference per element. -/
def refSetClear (s : List Nat) (h : Heap) : Heap :=
  s.foldl Heap.unref h

/-- Fields of `GLObjectReleaser`: the tracked set `_objects` and the scratch set `_temp`. -/
structure GLObjectReleaser where
  _objects : List Nat
  _temp : List Nat
  deriving DecidableEq, Repr

/-- The loop of the sweep: every object whose count is 1 is released, every other object
is inserted into the scratch set. -/
def sweepLoop : List Nat → List Nat → Heap → List GLCall → List Nat × Heap × List GLCall
  | [], temp, h, calls => (temp, h, calls)
  | p :: rest, temp, h, calls =>
    if (h p).referenceCount = 1 then
      let r := (h p).release
      sweepLoop rest temp (Function.update h p r.1) (calls ++ r.2)
    else
      let ins := refSetInsert temp h p
      sweepLoop rest ins.1 ins.2 calls

/-- `GLObjectReleaser::operator()` (and `flushAllDeletedGLObjects` in the
graphics-object-manager build, which has the same body): clear `_temp`, run the loop,
swap `_objects` and `_temp`. -/
def GLObjectReleaser.operatorCall (rel : GLObjectReleaser) (h : Heap) (calls : List GLCall) :
    GLObjectReleaser × Heap × List GLCall :=
  let h0 := refSetClear rel._temp h
  let r := sweepLoop rel._objects [] h0 calls
  ({ _objects := r.1, _temp := rel._objects }, r.2.1, r.2.2)

/-- An operation registered with a graphics context (`osg::GraphicsOperation`): the
releaser created for a context, or a job arena identified by its address. -/
inductive Operation where
  | releaser (contextID : Nat)
  | arena (address : Nat)
  deriving DecidableEq, Repr

/-- The state the releaser code works on: the object store, the static table `_buf` of
releasers indexed by context identifier, the operations registered with each graphics
context, and the device calls issued so far. -/
structure World where
  heap : Heap
  _buf : Nat → Option GLObjectReleaser
  operations : Nat → List Operation
  calls : List GLCall

/-- `GLObjectReleaser::watch` (default build): fetch the releaser of the context,
creating it and adding it to the graphics context when there is none, then insert the
object into `_objects`. -/
def GLObjectReleaser.watch (w : World) (obj : Nat) (contextID : Nat) : World :=
  let relOps : GLObjectReleaser × (Nat → List Operation) :=
    match w._buf contextID with
    | some rel => (rel, w.operations)
    | none =>
      ({ _objects := [], _temp := [] },
        Function.update w.operations contextID
          (w.operations contextID ++ [Operation.releaser contextID]))
  let ins := refSetInsert relOps.1._objects w.heap obj
  { w with
    heap := ins.2
    _buf := Function.update w._buf contextID (some { relOps.1 with _objects := ins.1 })
    operations := relOps.2 }

/-- The loop of `releaseAll`: `release()` on every tracked object, in iteration order. -/
def releaseAllLoop : List Nat → Heap → List GLCall → Heap × List GLCall
  | [], h, calls => (h, calls)
  | p :: rest, h, calls =>
    let r := (h p).release
    releaseAllLoop rest (Function.update h p r.1) (calls ++ r.2)

/-- `GLObjectReleaser::releaseAll`: when the context has a releaser, release every
tracked object and clear `_objects`. -/
def GLObjectReleaser.releaseAll (w : World) (contextID : Nat) : World :=
  match w._buf contextID with
  | some rel =>
    let r := releaseAllLoop rel._objects w.heap w.calls
    { w with
      heap := refSetClear rel._objects r.1
      calls := r.2
      _buf := Function.update w._buf contextID (some { rel with _objects := [] }) }
  | none => w

/-- The data-structure invariant of a releaser against the store: both sets hold each
address once, and every held object carries one reference per set holding it. -/
def GLObjectReleaser.WF (rel : GLObjectReleaser) (h : Heap) : Prop :=
  rel._objects.Nodup ∧ rel._temp.Nodup ∧
    ∀ p ∈ rel._objects ++ rel._temp,
      rel._objects.count p + rel._temp.count p ≤ (h p).referenceCount

instance (rel : GLObjectReleaser) (h : Heap) : Decidable (rel.WF h) :=
  inferInstanceAs (Decidable (rel._objects.Nodup ∧ rel._temp.Nodup ∧
    ∀ p ∈ rel._objects ++ rel._temp,
      rel._objects.count p + rel._temp.count p ≤ (h p).referenceCount))

/-- The reference count the sweep reads for the object at `p`: the count once the
scratch set has dropped the references it kept from the sweep before. -/
def GLObjectReleaser.countAtSweep (rel : GLObjectReleaser) (h : Heap) (p : Nat) : Nat :=
  (refSetClear rel._temp h p).referenceCount

/-! ## The GPU job arena -/

/-- A closure submitted to the arena: an identity and the time, in clock ticks, that
running it takes. -/
structure Job where
  id : Nat
  cost : Nat
  deriving DecidableEq, Repr

/-- `GPUJobArena::Delegate`, a `std::function`: `none` is the empty function, which
compares equal to `nullptr`. -/
abbrev Delegate := Option Job

/-- Ticks of `std::chrono::high_resolution_clock` (nanoseconds) per millisecond. -/
def TICKS_PER_MS : Nat := 1000000

/-- `std::chrono::duration_cast<ms>(Clock::now() - start)`: whole milliseconds, truncated. -/
def elapsedMs (start now : Nat) : Int :=
  (((now - start) / TICKS_PER_MS : Nat) : Int)

/-- Fields of `GPUJobArena`: the bound graphics context, the queue, the time slice in
milliseconds and the termination flag. -/
structure GPUJobArena where
  _gc : Option Nat
  _queue : List Delegate
  _timeSlice : Int
  _done : Bool
  deriving DecidableEq, Repr

/-- The closures in a queue, empty delegates left out. -/
def closures (q : List Delegate) : List Job := q.filterMap id

/-- `GPUJobArena::dispatch`: append the delegate to the queue. -/
def GPUJobArena.dispatch (a : GPUJobArena) (del : Delegate) : GPUJobArena :=
  { a with _queue := a._queue ++ [del] }

/-- A sequence of `dispatch` calls. -/
def GPUJobArena.dispatchAll (a : GPUJobArena) (dels : List Delegate) : GPUJobArena :=
  dels.foldl GPUJobArena.dispatch a

/-- The loop of `GPUJobArena::operator()`.  Arguments: the flag `_done`, the time slice,
the clock at entry; then the queue, the clock now and the closures run so far.  Each
round pops the front delegate; an empty one ends the loop, any other is run (the clock
advances by its cost) and the loop ends when the elapsed whole milliseconds reach the
slice. -/
def drainLoop (done : Bool) (timeSlice : Int) (start : Nat) :
    List Delegate → Nat → List Job → List Delegate × Nat × List Job
  | [], now, ran => ([], now, ran)
  | next :: rest, now, ran =>
    if done then (next :: rest, now, ran)
    else
      match next with
      | none => (rest, now, ran)
      | some job =>
        if timeSlice ≤ elapsedMs start (now + job.cost) then
          (rest, now + job.cost, ran ++ [job])
        else
          drainLoop done timeSlice start rest (now + job.cost) (ran ++ [job])

/-- The outcome of one drain: the arena afterwards, the clock at return and the closures
that were run, in order. -/
structure DrainResult where
  arena : GPUJobArena
  now : Nat
  ran : List Job
  deriving DecidableEq, Repr

/-- `GPUJobArena::operator()`, entered when the clock reads `start`. -/
def GPUJobArena.operatorCall (a : GPUJobArena) (start : Nat) : DrainResult :=
  let r := drainLoop a._done a._timeSlice start a._queue start []
  { arena := { a with _queue := r.1 }, now := r.2.1, ran := r.2.2 }

/-- Successive drains, each entered at the given clock reading; returns the arena
afterwards and everything that was run, in order. -/
def GPUJobArena.drainMany (a : GPUJobArena) : List Nat → GPUJobArena × List Job
  | [] => (a, [])
  | start :: starts =>
    let r := a.operatorCall start
    let r2 := GPUJobArena.drainMany r.arena starts
    (r2.1, r.ran ++ r2.2)

/-- A call made on a graphics context by `setGraphicsContext`. -/
inductive GCCall where
  | remove (gc : Nat) (op : Operation)
  | add (gc : Nat) (op : Operation)
  deriving DecidableEq, Repr

/-- `osg::GraphicsContext::remove`: erase every entry equal to the operation. -/
def gcRemove (ops : Nat → List Operation) (gc : Nat) (op : Operation) : Nat → List Operation :=
  Function.update ops gc ((ops gc).filter (fun o => decide (o ≠ op)))

/-- `osg::GraphicsContext::add`: push the operation at the back of the list. -/
def gcAdd (ops : Nat → List Operation) (gc : Nat) (op : Operation) : Nat → List Operation :=
  Function.update ops gc (ops gc ++ [op])

/-- The outcome of `setGraphicsContext`: the arena, the operation lists of the graphics
contexts, and the calls made on graphics contexts, in order. -/
structure BindResult where
  arena : GPUJobArena
  operations : Nat → List Operation
  gcCalls : List GCCall

/-- `GPUJobArena::setGraphicsContext` for the arena at address `this`; `none` is the
null context. -/
def GPUJobArena.setGraphicsContext (this : Nat) (a : GPUJobArena)
    (ops : Nat → List Operation) (gc : Option Nat) : BindResult :=
  if gc ≠ a._gc ∨ gc = none then
    let detached : (Nat → List Operation) × List GCCall :=
      match a._gc with
      | some old => (gcRemove ops old (Operation.arena this), [GCCall.remove old (Operation.arena this)])
      | none => (ops, [])
    match gc with
    | some g =>
      { arena := { a with _gc := some g }
        operations := gcAdd detached.1 g (Operation.arena this)
        gcCalls := detached.2 ++ [GCCall.add g (Operation.arena this)] }
    | none =>
      { arena := { a with _gc := none }, operations := detached.1, gcCalls := detached.2 }
  else
    { arena := a, operations := ops, gcCalls := [] }

/-- The arena at `this` is registered with its bound context, once, and with no other. -/
def GPUJobArena.Registered (this : Nat) (a : GPUJobArena) (ops : Nat → List Operation) : Prop :=
  ∀ g, (ops g).count (Operation.arena this) = if a._gc = some g then 1 else 0

/-! ## The time-slice override -/

/-- C `isspace` in the "C" locale. -/
def isspace (c : Char) : Bool :=
  c = ' ' || c = '\t' || c = '\n' || c = '\r' || c.toNat = 11 || c.toNat = 12

/-- The digits read by `atoi`: the value of the longest run of decimal digits at the
front, continuing from `acc`. -/
def atoiDigits (acc : Nat) : List Char → Nat
  | [] => acc
  | c :: cs => if c.isDigit then atoiDigits (acc * 10 + (c.toNat - 48)) cs else acc

/-- The number that `strtol` reads in base 10: skip leading white space, take an optional
sign, read the digits that follow; 0 when there is none. -/
def strtolValue (s : List Char) : Int :=
  match s.dropWhile isspace with
  | [] => 0
  | c :: cs =>
    if c = '-' then -(atoiDigits 0 cs : Int)
    else if c = '+' then (atoiDigits 0 cs : Int)
    else (atoiDigits 0 (c :: cs) : Int)

/-- The result of `strtol` on a 64-bit `long`: a number outside the range of `long` is
returned as `LONG_MIN` or `LONG_MAX`. -/
def saturateLong (v : Int) : Int :=
  if v < -9223372036854775808 then -9223372036854775808
  else if 9223372036854775807 < v then 9223372036854775807
  else v

/-- Conversion of a `long` to a 32-bit `int`: the value modulo 2^32, taken in
-2^31 .. 2^31 - 1. -/
def toInt32 (x : Int) : Int :=
  (x + 2147483648) % 4294967296 - 2147483648

/-- C `atoi`, which the C library defines as `(int) strtol(s, NULL, 10)`: the number
read, as a `long`, converted to a 32-bit `int`. -/
def atoi (s : List Char) : Int :=
  toInt32 (saturateLong (strtolValue s))

/-- Modelled from the spec: `clamp` of `osgEarth/Math`, which is not among the sources at
hand ("clamped to a documented range"): `x` brought into `lo..hi`. -/
def clamp (x lo hi : Int) : Int :=
  if x < lo then lo else if hi < x then hi else x

/-- `GPUJobArena::GPUJobArena`: the default slice of 2 ms, replaced by the clamped
`atoi` of `OSGEARTH_GPU_TIME_SLICE_MS` when `getenv` returns a value. -/
def GPUJobArena.new (getenv : Option (List Char)) : GPUJobArena :=
  let a : GPUJobArena := { _gc := none, _queue := [], _timeSlice := 2, _done := false }
  match getenv with
  | some value => { a with _timeSlice := clamp (atoi value) 1 1000 }
  | none => a

/-- A string of decimal digits only, read as a number continuing from `acc`. -/
def allDigitsValue (acc : Nat) : List Char → Option Nat
  | [] => some acc
  | c :: cs => if c.isDigit then allDigitsValue (acc * 10 + (c.toNat - 48)) cs else none

/-- The value of a valid integer: an optional sign followed by one or more decimal
digits and nothing else. -/
def validInteger (s : List Char) : Option Int :=
  match s with
  | [] => none
  | c :: cs =>
    if c = '-' then
      if cs = [] then none else (allDigitsValue 0 cs).map (fun (m : Nat) => -(m : Int))
    else if c = '+' then
      if cs = [] then none else (allDigitsValue 0 cs).map (fun (m : Nat) => (m : Int))
    else (allDigitsValue 0 (c :: cs)).map (fun (m : Nat) => (m : Int))

/-- The override as the specification words it: the default of 2 ms when the variable is
absent or is not a valid integer, else its value clamped to 1..1000. -/
def specTimeSlice (getenv : Option (List Char)) : Int :=
  match getenv with
  | none => 2
  | some value =>
    match validInteger value with
    | none => 2
    | some n => clamp n 1 1000

/-! ## Derived quantities and example states -/

/-- The store after the sweep loop over `objs`: an object of `objs` with count 1 is
released, any other object of `objs` gains the reference of the scratch set. -/
def sweepHeap (objs : List Nat) (h : Heap) : Heap := fun q =>
  if q ∈ objs then
    if (h q).referenceCount = 1 then (h q).release.1
    else { h q with _refCount := (h q)._refCount + 1 }
  else h q

/-- The releaser of a context, the empty one when `_buf` has none. -/
def World.releaser (w : World) (contextID : Nat) : GLObjectReleaser :=
  (w._buf contextID).getD { _objects := [], _temp := [] }

/-- Three buffers at addresses 0, 1, 2 (names 10, 11, 12); an external owner holds one
reference to each of the first two and none to the third. -/
def threeBuffers : Heap := fun p =>
  { _refCount := if p = 2 then 0 else 1
    _label := ""
    _ext := some 0
    derived := .buffer ⟨34962, 10 + p⟩ }

/-- The three buffers after `watch` was called on each under context 0, from a state
with no releaser. -/
def threeWatched : World :=
  GLObjectReleaser.watch (GLObjectReleaser.watch (GLObjectReleaser.watch
    { heap := threeBuffers, _buf := fun _ => none, operations := fun _ => [], calls := [] }
    0 0) 1 0) 2 0

/-- Every releaser in `_buf` satisfies the set invariant. -/
def World.WF (w : World) : Prop :=
  ∀ contextID rel, w._buf contextID = some rel → rel.WF w.heap

/-- Two buffers and two textures at addresses 0..3 (names 20..23), with external
reference counts 0, 1, 2, 3; the texture at address 3 has a resolved handle and is
resident. -/
def fourObjects : Heap := fun p =>
  { _refCount := p
    _label := ""
    _ext := some 0
    derived :=
      if p = 0 ∨ p = 1 then .buffer ⟨34962, 20 + p⟩
      else if p = 2 then .texture ⟨3553, 22, NO_HANDLE, false⟩
      else .texture ⟨3553, 23, 4096, true⟩ }

/-- The four objects after `watch` was called on each under context 0. -/
def fourWatched : World :=
  GLObjectReleaser.watch (GLObjectReleaser.watch (GLObjectReleaser.watch
    (GLObjectReleaser.watch
      { heap := fourObjects, _buf := fun _ => none, operations := fun _ => [], calls := [] }
      0 0) 1 0) 2 0) 3 0

/-- The time a list of closures takes to run, in clock ticks. -/
def totalCost (jobs : List Job) : Nat := (jobs.map Job.cost).sum

/-- An arena on context 0 with the default slice, of which the front delegate is empty
and the second is a closure. -/
def arenaEmptyFront : GPUJobArena :=
  { _gc := some 0, _queue := [none, some ⟨1, 1000000⟩], _timeSlice := 2, _done := false }

/-- An arena on context 0 with one closure queued and the termination flag set. -/
def arenaDone : GPUJobArena :=
  { _gc := some 0, _queue := [some ⟨1, 1000000⟩], _timeSlice := 2, _done := true }

/-- An arena with an empty delegate at the front, two closures behind it, and a slice
of 5 ms. -/
def arenaStopsEarly : GPUJobArena :=
  { _gc := some 0, _queue := [none, some ⟨1, 1000000⟩, some ⟨2, 1000000⟩], _timeSlice := 5,
    _done := false }

/-- Ten closures of 1 ms each. -/
def tenJobs : List Job := (List.range 10).map (fun i => ⟨i, 1000000⟩)

/-- An arena with a slice of 5 ms and the ten closures queued. -/
def arenaTenJobs : GPUJobArena :=
  { _gc := some 0, _queue := tenJobs.map some, _timeSlice := 5, _done := false }

/-- An arena at address 0 bound to context 1. -/
def arenaBound : GPUJobArena :=
  { _gc := some 1, _queue := [], _timeSlice := 2, _done := false }

/-- Operation lists in which context 1 holds its releaser and the arena at address 0,
and every other context holds its releaser. -/
def opsBound : Nat → List Operation := fun g =>
  if g = 1 then [Operation.releaser 1, Operation.arena 0] else [Operation.releaser g]

/-! ## Construction, handle resolution and the other build of `watch` -/

/-- The identifier `GL_BUFFER` (0x82E0) passed to `debugObjectLabel`. -/
def GL_BUFFER : Nat := 33504

/-- The identifier `GL_TEXTURE` (0x1702) passed to `debugObjectLabel`. -/
def GL_TEXTURE : Nat := 5890

/-- `GLBuffer::bind`. -/
def GLBuffer.bind (b : GLBuffer) : List GLCall :=
  [GLCall.glBindBuffer b._target b._name]

/-- `GLBuffer::GLBuffer`, constructing the object at address `this` under the state of
context `contextID`.  `genName` is what `_name` holds after `glGenBuffers`: the name the
device wrote, or `~0U` when it wrote none.  A valid name is bound and labelled, and the
object is watched. -/
def GLBuffer.new (w : World) (this target contextID : Nat) (label : String)
    (genName : Nat) : World :=
  let b : GLBuffer := { _target := target, _name := genName }
  let obj : GLObject :=
    { _refCount := 0, _label := label, _ext := some contextID, derived := .buffer b }
  let w1 : World :=
    { w with heap := Function.update w.heap this obj, calls := w.calls ++ [GLCall.glGenBuffers] }
  if genName ≠ NO_NAME then
    GLObjectReleaser.watch
      { w1 with calls := w1.calls ++ b.bind ++ [GLCall.debugObjectLabel GL_BUFFER genName label] }
      this contextID
  else
    w1

/-- `GLTexture::GLTexture`, constructing the object at address `this` under the state of
context `contextID`; `genName` is what `_name` holds after `glGenTextures`.  The handle
starts unresolved and the texture not resident. -/
def GLTexture.new (w : World) (this target contextID : Nat) (label : String)
    (genName : Nat) : World :=
  let t : GLTexture :=
    { _target := target, _name := genName, _handle := NO_HANDLE, _isResident := false }
  let obj : GLObject :=
    { _refCount := 0, _label := label, _ext := some contextID, derived := .texture t }
  let w1 : World :=
    { w with heap := Function.update w.heap this obj, calls := w.calls ++ [GLCall.glGenTextures] }
  if genName ≠ NO_NAME then
    GLObjectReleaser.watch
      { w1 with calls := w1.calls ++ t.bind ++ [GLCall.debugObjectLabel GL_TEXTURE genName label] }
      this contextID
  else
    w1

/-- `osg::get<GLObjectReleaser>(contextID)` of OpenSceneGraph, used by the
graphics-object-manager build: the releaser kept for the context, constructed when the
context has none. -/
def osgGet (w : World) (contextID : Nat) : World × GLObjectReleaser :=
  match w._buf contextID with
  | some rel => (w, rel)
  | none =>
    ({ w with _buf := Function.update w._buf contextID (some { _objects := [], _temp := [] }) },
      { _objects := [], _temp := [] })

/-- `GLObjectReleaser::watch` of the graphics-object-manager build; `object` is `none`
for a null pointer.  Nothing is done for a null object or an object without extensions;
else the object is inserted into the releaser of the context of its extensions. -/
def GLObjectReleaser.watchGOM (w : World) (object : Option Nat) : World :=
  match object with
  | none => w
  | some p =>
    match (w.heap p)._ext with
    | none => w
    | some contextID =>
      let got := osgGet w contextID
      let ins := refSetInsert got.2._objects got.1.heap p
      { got.1 with
        heap := ins.2
        _buf := Function.update got.1._buf contextID (some { got.2 with _objects := ins.1 }) }

/-- `GLTexture::handle`: when the handle is unresolved, bind and store what
`glGetTextureHandle` returns (`deviceHandle`); return the stored handle.  Gives the
texture afterwards, the value returned and the device calls issued. -/
def GLTexture.handle (t : GLTexture) (deviceHandle : Nat) : GLTexture × Nat × List GLCall :=
  if t._handle = NO_HANDLE then
    ({ t with _handle := deviceHandle }, deviceHandle,
      t.bind ++ [GLCall.glGetTextureHandle t._name])
  else
    (t, t._handle, [])

/-- Successive calls of `handle()`, one per device answer in the list (the answer is
consumed only by a call that resolves); gives the texture afterwards, the values
returned and the device calls issued, in order. -/
def GLTexture.handleN : List Nat → GLTexture → GLTexture × List Nat × List GLCall
  | [], t => (t, [], [])
  | d :: ds, t =>
    let r := t.handle d
    let r2 := GLTexture.handleN ds r.1
    (r2.1, r.2.1 :: r2.2.1, r.2.2 ++ r2.2.2)

/-- Whether a device call resolves a bindless handle. -/
def GLCall.isResolve : GLCall → Bool
  | .glGetTextureHandle _ => true
  | _ => false

/-- A world with no releaser, no operation and no call, over the given store. -/
def emptyWorld (h : Heap) : World :=
  { heap := h, _buf := fun _ => none, operations := fun _ => [], calls := [] }

/-- An object without extensions at every address. -/
def noExtObjects : Heap := fun p =>
  { _refCount := 1, _label := "", _ext := none, derived := .buffer ⟨34962, 10 + p⟩ }

/-! ## Style groups (`osgEarthSplat/RoadSurfaceLayer.cpp`) -/

/-- A `Style` as far as grouping reads it: its name (`getName()`) and the rest of its
content, kept opaque. -/
structure Style where
  name : String
  content : Nat
  deriving DecidableEq, Repr

/-- A feature, given by its address. -/
abbrev Feature := Nat

/-- `FeatureList`. -/
abbrev FeatureList := List Feature

/-- `StyleToFeatures`: a vector of pairs of a style and the features grouped under it. -/
abbrev StyleToFeatures := List (Style × FeatureList)

/-- The search loop of `addFeatureToMap`: the feature is pushed at the back of the first
group whose style has the name and the loop ends; `none` when the loop ends with nothing
added. -/
def addToFirstNamed (name : String) (feature : Feature) :
    StyleToFeatures → Option StyleToFeatures
  | [] => none
  | g :: rest =>
    if g.1.name = name then some ((g.1, g.2 ++ [feature]) :: rest)
    else (addToFirstNamed name feature rest).map (fun m => g :: m)

/-- `addFeatureToMap`: search by name when the style has one; when nothing was added,
push a new pair of the style and the feature alone. -/
def addFeatureToMap (feature : Feature) (style : Style) (map : StyleToFeatures) :
    StyleToFeatures :=
  let found := if style.name ≠ "" then addToFirstNamed style.name feature map else none
  match found with
  | some m => m
  | none => map ++ [(style, [feature])]

/-- The number of features in all groups. -/
def featureCount (map : StyleToFeatures) : Nat := (map.map (fun g => g.2.length)).sum

/-- Successive calls of `addFeatureToMap`, as `sortFeaturesIntoStyleGroups` makes them. -/
def addAllToMap (adds : List (Feature × Style)) (map : StyleToFeatures) : StyleToFeatures :=
  adds.foldl (fun m fs => addFeatureToMap fs.1 fs.2 m) map

/-- The names of the groups that have one. -/
def groupNames (map : StyleToFeatures) : List String :=
  (map.map (fun g => g.1.name)).filter (fun n => decide (n ≠ ""))

/-- No two groups share a name that is not empty, and a group without a name holds one
feature. -/
def GroupedByName (map : StyleToFeatures) : Prop :=
  (groupNames map).Nodup ∧ ∀ g ∈ map, g.1.name = "" → g.2.length = 1

/-- The label given to the buffer constructed in the examples. -/
def exampleLabel : String := "vbo"

/-- Two groups: one named "road" holding feature 1, one without a name holding
feature 2. -/
def twoGroups : StyleToFeatures := [(⟨"road", 0⟩, [1]), (⟨"", 1⟩, [2])]

theorem GLBuffer.buffer_release_name (b : GLBuffer) : b.release.1._name = NO_NAME := by
  unfold GLBuffer.release
  split <;> simp_all

theorem GLBuffer.buffer_release_of_released (b : GLBuffer) (hb : b._name = NO_NAME) :
    b.release = (b, []) := by
  simp [GLBuffer.release, hb]

theorem GLBuffer.buffer_releaseN_released (n : Nat) (b : GLBuffer) (hb : b._name = NO_NAME) :
    GLBuffer.releaseN n b = (b, []) := by
  induction n with
  | zero => rfl
  | succ k ih => simp [GLBuffer.releaseN, GLBuffer.buffer_release_of_released b hb, ih]

theorem GLTexture.texture_release_name (t : GLTexture) : t.release.1._name = NO_NAME := by
  unfold GLTexture.release
  by_cases h1 : t._handle = NO_HANDLE <;> by_cases h2 : t._name = NO_NAME <;> simp [h1, h2]

theorem GLTexture.release_handle (t : GLTexture) : t.release.1._handle = NO_HANDLE := by
  unfold GLTexture.release
  by_cases h1 : t._handle = NO_HANDLE <;> by_cases h2 : t._name = NO_NAME <;> simp [h1, h2]

theorem GLTexture.texture_release_of_released (t : GLTexture) (hn : t._name = NO_NAME)
    (hh : t._handle = NO_HANDLE) : t.release = (t, []) := by
  simp [GLTexture.release, hn, hh]

theorem GLTexture.texture_releaseN_released (n : Nat) (t : GLTexture) (hn : t._name = NO_NAME)
    (hh : t._handle = NO_HANDLE) : GLTexture.releaseN n t = (t, []) := by
  induction n with
  | zero => rfl
  | succ k ih => simp [GLTexture.releaseN, GLTexture.texture_release_of_released t hn hh, ih]

/-- C3: `release()` is idempotent for `GLBuffer` and `GLTexture`.  For every object state
and every `N ≥ 1`, `N` calls leave the object and the issued device calls that one call
does, with the name (and the handle of a texture) at the sentinel; a call on an object
that is already released (`b0`, `t0`) issues no device call and changes no field. -/
theorem release_idempotent (N : Nat) (hN : 1 ≤ N) (b : GLBuffer) (t : GLTexture)
    (b0 : GLBuffer) (t0 : GLTexture) (hb0 : b0._name = NO_NAME)
    (ht0 : t0._name = NO_NAME ∧ t0._handle = NO_HANDLE) :
    (GLBuffer.releaseN N b = b.release ∧ b.release.1._name = NO_NAME) ∧
    (GLTexture.releaseN N t = t.release ∧ t.release.1._name = NO_NAME ∧
      t.release.1._handle = NO_HANDLE) ∧
    b0.release = (b0, []) ∧ t0.release = (t0, []) := by
  obtain ⟨n, rfl⟩ : ∃ n, N = n + 1 := ⟨N - 1, by omega⟩
  refine ⟨⟨?_, b.buffer_release_name⟩, ⟨?_, t.texture_release_name, t.release_handle⟩,
    b0.buffer_release_of_released hb0, t0.texture_release_of_released ht0.1 ht0.2⟩
  · simp [GLBuffer.releaseN, GLBuffer.buffer_releaseN_released n _ b.buffer_release_name]
  · simp [GLTexture.releaseN,
      GLTexture.texture_releaseN_released n _ t.texture_release_name t.release_handle]

/-- C3 at a concrete input: three calls on a live buffer and on a live resident texture,
and one call on a buffer and a texture that are already released. -/
theorem release_idempotent_witness :
    1 ≤ 3 ∧
    ((GLBuffer.releaseN 3 ⟨34962, 7⟩ = (GLBuffer.release ⟨34962, 7⟩) ∧
        (GLBuffer.release ⟨34962, 7⟩).1._name = NO_NAME) ∧
      (GLTexture.releaseN 3 ⟨3553, 9, 1234, true⟩ = (GLTexture.release ⟨3553, 9, 1234, true⟩) ∧
        (GLTexture.release ⟨3553, 9, 1234, true⟩).1._name = NO_NAME ∧
        (GLTexture.release ⟨3553, 9, 1234, true⟩).1._handle = NO_HANDLE) ∧
      GLBuffer.release ⟨34962, NO_NAME⟩ = (⟨34962, NO_NAME⟩, []) ∧
      GLTexture.release ⟨3553, NO_NAME, NO_HANDLE, true⟩ =
        (⟨3553, NO_NAME, NO_HANDLE, true⟩, [])) :=
  ⟨by decide, release_idempotent 3 (by decide) ⟨34962, 7⟩ ⟨3553, 9, 1234, true⟩
    ⟨34962, NO_NAME⟩ ⟨3553, NO_NAME, NO_HANDLE, true⟩ rfl ⟨rfl, rfl⟩⟩

/-- The calls of three releases of a live resident texture: one demotion and one delete,
issued by the first call only. -/
theorem release_three_times_calls :
    (GLTexture.releaseN 3 ⟨3553, 9, 1234, true⟩).2 =
      [GLCall.glMakeTextureHandleNonResident 1234, GLCall.glDeleteTextures 9] := by
  decide

/-! ## The releaser sweep -/

theorem GLObject.release_refCount (o : GLObject) : o.release.1._refCount = o._refCount := by
  unfold GLObject.release
  split <;> rfl

theorem refSetClear_apply (s : List Nat) (h : Heap) (q : Nat) :
    refSetClear s h q = { h q with _refCount := (h q)._refCount - s.count q } := by
  induction s generalizing h with
  | nil => simp [refSetClear]
  | cons t ts ih =>
    have hstep : refSetClear (t :: ts) h = refSetClear ts (h.unref t) := rfl
    rw [hstep, ih]
    by_cases hq : q = t
    · subst hq
      simp [Heap.unref, Nat.sub_sub, Nat.add_comm]
    · have hne : t ≠ q := fun e => hq e.symm
      simp [Heap.unref, Function.update_noteq hq, List.count_cons_of_ne hq]

theorem refSetClear_derived (s : List Nat) (h : Heap) (q : Nat) :
    (refSetClear s h q).derived = (h q).derived := by
  rw [refSetClear_apply]

theorem refSetClear_release (s : List Nat) (h : Heap) (q : Nat) :
    (refSetClear s h q).release.2 = (h q).release.2 ∧
      (refSetClear s h q).release.1.derived = (h q).release.1.derived := by
  have hd := refSetClear_derived s h q
  unfold GLObject.release
  rw [hd]
  cases (h q).derived <;> simp

theorem sweepLoop_spec (objs : List Nat) :
    ∀ (temp : List Nat) (h : Heap) (calls : List GLCall),
      objs.Nodup → (∀ p ∈ objs, p ∉ temp) →
      sweepLoop objs temp h calls =
        (temp ++ objs.filter (fun p => decide ((h p).referenceCount ≠ 1)),
          sweepHeap objs h,
          calls ++ (objs.filter (fun p => decide ((h p).referenceCount = 1))).flatMap
            (fun p => (h p).release.2)) := by
  induction objs with
  | nil =>
    intro temp h calls _ _
    have hh : sweepHeap [] h = h := by
      funext q
      simp [sweepHeap]
    simp [sweepLoop, hh]
  | cons p rest ih =>
    intro temp h calls hnd hdis
    have hp : p ∉ rest := (List.nodup_cons.mp hnd).1
    have hrest : rest.Nodup := (List.nodup_cons.mp hnd).2
    have hpt : p ∉ temp := hdis p (List.mem_cons_self _ _)
    by_cases hc : (h p).referenceCount = 1
    · have hsame : ∀ q ∈ rest, Function.update h p (h p).release.1 q = h q := by
        intro q hq
        have hqp : q ≠ p := fun e => hp (e ▸ hq)
        simp [Function.update_noteq hqp]
      have hf1 : rest.filter (fun q => decide
            ((Function.update h p (h p).release.1 q).referenceCount ≠ 1)) =
          rest.filter (fun q => decide ((h q).referenceCount ≠ 1)) :=
        List.filter_congr (fun q hq => by rw [hsame q hq])
      have hf2 : rest.filter (fun q => decide
            ((Function.update h p (h p).release.1 q).referenceCount = 1)) =
          rest.filter (fun q => decide ((h q).referenceCount = 1)) :=
        List.filter_congr (fun q hq => by rw [hsame q hq])
      have hfm : ∀ l : List Nat, (∀ q ∈ l, q ∈ rest) →
          l.flatMap (fun q => (Function.update h p (h p).release.1 q).release.2) =
          l.flatMap (fun q => (h q).release.2) := by
        intro l hl
        induction l with
        | nil => rfl
        | cons x xs ihx =>
          simp only [List.flatMap_cons]
          rw [hsame x (hl x (List.mem_cons_self _ _)),
            ihx (fun q hq => hl q (List.mem_cons_of_mem _ hq))]
      simp only [sweepLoop, hc, if_true]
      rw [ih temp _ _ hrest (fun q hq => hdis q (List.mem_cons_of_mem _ hq)), hf1, hf2,
        hfm _ (fun q hq => (List.mem_filter.mp hq).1)]
      simp only [List.filter_cons, hc, decide_True, if_true, not_true_eq_false, decide_False,
        List.flatMap_cons, List.append_assoc, ne_eq, Bool.false_eq_true, if_false]
      congr 1
      congr 1
      funext q
      unfold sweepHeap
      by_cases hqp : q = p
      · subst hqp
        simp [hp, hc]
      · by_cases hqr : q ∈ rest
        · simp [hqp, hqr, Function.update_noteq hqp]
        · simp [hqp, hqr, Function.update_noteq hqp]
    · have hsame : ∀ q ∈ rest, h.ref p q = h q := by
        intro q hq
        have hqp : q ≠ p := fun e => hp (e ▸ hq)
        simp [Heap.ref, Function.update_noteq hqp]
      have hf1 : rest.filter (fun q => decide ((h.ref p q).referenceCount ≠ 1)) =
          rest.filter (fun q => decide ((h q).referenceCount ≠ 1)) :=
        List.filter_congr (fun q hq => by rw [hsame q hq])
      have hf2 : rest.filter (fun q => decide ((h.ref p q).referenceCount = 1)) =
          rest.filter (fun q => decide ((h q).referenceCount = 1)) :=
        List.filter_congr (fun q hq => by rw [hsame q hq])
      have hfm : ∀ l : List Nat, (∀ q ∈ l, q ∈ rest) →
          l.flatMap (fun q => (h.ref p q).release.2) =
          l.flatMap (fun q => (h q).release.2) := by
        intro l hl
        induction l with
        | nil => rfl
        | cons x xs ihx =>
          simp only [List.flatMap_cons]
          rw [hsame x (hl x (List.mem_cons_self _ _)),
            ihx (fun q hq => hl q (List.mem_cons_of_mem _ hq))]
      have hdis2 : ∀ q ∈ rest, q ∉ temp ++ [p] := by
        intro q hq hmem
        rcases List.mem_append.mp hmem with h1 | h1
        · exact hdis q (List.mem_cons_of_mem _ hq) h1
        · exact hp (List.mem_singleton.mp h1 ▸ hq)
      simp only [sweepLoop, hc, if_false, refSetInsert, hpt]
      rw [ih _ _ _ hrest hdis2, hf1, hf2, hfm _ (fun q hq => (List.mem_filter.mp hq).1)]
      simp only [List.filter_cons, hc, decide_True, if_true, not_false_eq_true, decide_False,
        List.append_assoc, ne_eq, Bool.false_eq_true, if_false, List.singleton_append]
      congr 1
      congr 1
      funext q
      unfold sweepHeap
      by_cases hqp : q = p
      · subst hqp
        simp [hp, hc, Heap.ref]
      · by_cases hqr : q ∈ rest
        · simp [hqp, hqr, Heap.ref, Function.update_noteq hqp]
        · simp [hqp, hqr, Heap.ref, Function.update_noteq hqp]

theorem GLObject.object_release_name (o : GLObject) : o.release.1.name = NO_NAME := by
  unfold GLObject.release GLObject.name
  cases hd : o.derived with
  | buffer b => simpa using b.buffer_release_name
  | texture t => simpa using t.texture_release_name

theorem GLObjectReleaser.operatorCall_eq (rel : GLObjectReleaser) (h : Heap)
    (calls : List GLCall) (hwf : rel.WF h) :
    rel.operatorCall h calls =
      ({ _objects := rel._objects.filter
            (fun p => decide (rel.countAtSweep h p ≠ 1)),
         _temp := rel._objects },
        sweepHeap rel._objects (refSetClear rel._temp h),
        calls ++ (rel._objects.filter (fun p => decide (rel.countAtSweep h p = 1))).flatMap
          (fun p => (refSetClear rel._temp h p).release.2)) := by
  unfold GLObjectReleaser.operatorCall
  simp only
  rw [sweepLoop_spec rel._objects [] _ calls hwf.1 (fun _ _ => List.not_mem_nil _)]
  simp [GLObjectReleaser.countAtSweep]

theorem GLObjectReleaser.WF.one_le_countAtSweep {rel : GLObjectReleaser} {h : Heap}
    (hwf : rel.WF h) {p : Nat} (hp : p ∈ rel._objects) : 1 ≤ rel.countAtSweep h p := by
  have h1 := hwf.2.2 p (List.mem_append_left _ hp)
  have h2 : 1 ≤ rel._objects.count p := List.count_pos_iff.mpr hp
  unfold GLObjectReleaser.countAtSweep
  rw [refSetClear_apply]
  simp only [GLObject.referenceCount] at h1 ⊢
  omega

/-- The tracked set after the sweep, under the set invariant. -/
theorem GLObjectReleaser.operatorCall_objects (rel : GLObjectReleaser) (h : Heap)
    (calls : List GLCall) (hwf : rel.WF h) :
    (rel.operatorCall h calls).1._objects =
      rel._objects.filter (fun p => decide (1 < rel.countAtSweep h p)) := by
  rw [rel.operatorCall_eq h calls hwf]
  apply List.filter_congr
  intro p hp
  have := hwf.one_le_countAtSweep hp
  by_cases hc : rel.countAtSweep h p = 1
  · simp [hc]
  · have h2 : 1 < rel.countAtSweep h p := by omega
    simp [hc, h2]

theorem GLObjectReleaser.mem_operatorCall_objects (rel : GLObjectReleaser) (h : Heap)
    (calls : List GLCall) (hwf : rel.WF h) (p : Nat) :
    p ∈ (rel.operatorCall h calls).1._objects ↔
      p ∈ rel._objects ∧ 1 < rel.countAtSweep h p := by
  rw [rel.operatorCall_objects h calls hwf, List.mem_filter]
  simp

/-- C1: for every releaser state that satisfies the set invariant, the tracked set after
one sweep is the tracked set before it restricted to the objects whose reference count,
as the sweep reads it, exceeds 1; the order is kept, nothing is added, none of them is
dropped.  On a releaser that has not swept before (`_temp` empty, as after `watch` calls
only) that count is the stored count. -/
theorem sweep_tracked_set (rel : GLObjectReleaser) (h : Heap) (calls : List GLCall)
    (hwf : rel.WF h) :
    (rel.operatorCall h calls).1._objects =
        rel._objects.filter (fun p => decide (1 < rel.countAtSweep h p)) ∧
    (∀ p, p ∈ (rel.operatorCall h calls).1._objects ↔
        p ∈ rel._objects ∧ 1 < rel.countAtSweep h p) ∧
    (rel._temp = [] → (rel.operatorCall h calls).1._objects =
        rel._objects.filter (fun p => decide (1 < (h p).referenceCount))) := by
  refine ⟨rel.operatorCall_objects h calls hwf, rel.mem_operatorCall_objects h calls hwf, ?_⟩
  intro ht
  rw [rel.operatorCall_objects h calls hwf]
  apply List.filter_congr
  intro p _
  simp [GLObjectReleaser.countAtSweep, ht, refSetClear]

/-- C1 at a concrete input: three buffers watched under context 0 with counts 2, 2, 1;
the sweep keeps the first two. -/
theorem sweep_tracked_set_witness :
    (threeWatched.releaser 0).WF threeWatched.heap ∧
    ((threeWatched.releaser 0).operatorCall threeWatched.heap []).1._objects = [0, 1] :=
  ⟨by decide,
    (sweep_tracked_set (threeWatched.releaser 0) threeWatched.heap [] (by decide)).1.trans
      (by decide)⟩

/-- C2: one sweep calls `release()` on the tracked objects whose count is 1 and on no
other object.  The device calls it issues are those of `release()` on these objects, in
order; each of them leaves the tracked set with the sentinel name; every other object,
tracked or not, keeps its derived state (name, handle, residency), and a tracked object
with a further owner stays tracked with its name. -/
theorem sweep_releases_exactly_unreferenced (rel : GLObjectReleaser) (h : Heap)
    (calls : List GLCall) (hwf : rel.WF h) :
    (rel.operatorCall h calls).2.2 =
      calls ++ (rel._objects.filter (fun p => decide (rel.countAtSweep h p = 1))).flatMap
        (fun p => (h p).release.2) ∧
    (∀ p ∈ rel._objects, rel.countAtSweep h p = 1 →
      p ∉ (rel.operatorCall h calls).1._objects ∧
      ((rel.operatorCall h calls).2.1 p).derived = (h p).release.1.derived ∧
      ((rel.operatorCall h calls).2.1 p).name = NO_NAME) ∧
    (∀ p, ¬(p ∈ rel._objects ∧ rel.countAtSweep h p = 1) →
      ((rel.operatorCall h calls).2.1 p).derived = (h p).derived) ∧
    (∀ p ∈ rel._objects, 1 < rel.countAtSweep h p →
      p ∈ (rel.operatorCall h calls).1._objects ∧
      ((rel.operatorCall h calls).2.1 p).name = (h p).name) := by
  have hname : ∀ o o2 : GLObject, o.derived = o2.derived → o.name = o2.name := by
    intro o o2 e
    simp [GLObject.name, e]
  have hkeep : ∀ p, ¬(p ∈ rel._objects ∧ rel.countAtSweep h p = 1) →
      ((rel.operatorCall h calls).2.1 p).derived = (h p).derived := by
    intro p hp
    rw [rel.operatorCall_eq h calls hwf]
    simp only [sweepHeap]
    by_cases hmem : p ∈ rel._objects
    · have hc : ¬ (refSetClear rel._temp h p).referenceCount = 1 := fun e => hp ⟨hmem, e⟩
      simp [hmem, hc, refSetClear_derived]
    · simp [hmem, refSetClear_derived]
  have htracked := rel.mem_operatorCall_objects h calls hwf
  refine ⟨?_, ?_, hkeep, ?_⟩
  · rw [rel.operatorCall_eq h calls hwf]
    simp [(refSetClear_release rel._temp h _).1]
  · intro p hp hc
    have hd : ((rel.operatorCall h calls).2.1 p).derived = (h p).release.1.derived := by
      rw [rel.operatorCall_eq h calls hwf]
      have hc2 : (refSetClear rel._temp h p).referenceCount = 1 := hc
      simp [sweepHeap, hp, hc2, (refSetClear_release rel._temp h p).2]
    refine ⟨?_, hd, ?_⟩
    · rw [htracked]
      omega
    · rw [hname _ _ hd]
      exact (h p).object_release_name
  · intro p hp hc
    refine ⟨(htracked p).mpr ⟨hp, hc⟩, hname _ _ (hkeep p ?_)⟩
    omega

/-- C2 at the scenario of the specification: three tracked buffers with counts 2, 2, 1.
The sweep issues one delete call, for the third buffer, which leaves the tracked set
released; the first two stay tracked with their names. -/
theorem sweep_releases_exactly_unreferenced_witness :
    (threeWatched.releaser 0).WF threeWatched.heap ∧
    ((threeWatched.releaser 0).operatorCall threeWatched.heap []).2.2 =
      [GLCall.glDeleteBuffers 12] ∧
    ((threeWatched.releaser 0).operatorCall threeWatched.heap []).1._objects.length = 2 ∧
    (2 ∉ ((threeWatched.releaser 0).operatorCall threeWatched.heap []).1._objects ∧
      (((threeWatched.releaser 0).operatorCall threeWatched.heap []).2.1 2).name = NO_NAME) ∧
    (0 ∈ ((threeWatched.releaser 0).operatorCall threeWatched.heap []).1._objects ∧
      (((threeWatched.releaser 0).operatorCall threeWatched.heap []).2.1 0).name = 10) ∧
    (1 ∈ ((threeWatched.releaser 0).operatorCall threeWatched.heap []).1._objects ∧
      (((threeWatched.releaser 0).operatorCall threeWatched.heap []).2.1 1).name = 11) := by
  have hwf : (threeWatched.releaser 0).WF threeWatched.heap := by decide
  have key := sweep_releases_exactly_unreferenced (threeWatched.releaser 0)
    threeWatched.heap [] hwf
  refine ⟨hwf, key.1.trans (by decide), by decide, ?_, ?_, ?_⟩
  · have h2 := key.2.1 2 (by decide) (by decide)
    exact ⟨h2.1, h2.2.2⟩
  · have h0 := key.2.2.2 0 (by decide) (by decide)
    exact ⟨h0.1, h0.2.trans (by decide)⟩
  · have h1 := key.2.2.2 1 (by decide) (by decide)
    exact ⟨h1.1, h1.2.trans (by decide)⟩

/-! ## The set invariant is established by `watch` and kept by the sweep -/

theorem GLObjectReleaser.WF.mono {rel : GLObjectReleaser} {h h2 : Heap} (hwf : rel.WF h)
    (hle : ∀ p, (h p).referenceCount ≤ (h2 p).referenceCount) : rel.WF h2 :=
  ⟨hwf.1, hwf.2.1, fun p hp => le_trans (hwf.2.2 p hp) (hle p)⟩

theorem GLObjectReleaser.WF_empty (h : Heap) :
    GLObjectReleaser.WF { _objects := [], _temp := [] } h := by
  simp [GLObjectReleaser.WF]

theorem refSetInsert_refCount_le (s : List Nat) (h : Heap) (obj p : Nat) :
    (h p).referenceCount ≤ ((refSetInsert s h obj).2 p).referenceCount := by
  unfold refSetInsert
  split
  · exact le_refl _
  · by_cases hp : p = obj
    · subst hp
      simp [Heap.ref, GLObject.referenceCount]
    · simp [Heap.ref, Function.update_noteq hp]

theorem GLObjectReleaser.WF.insert {rel : GLObjectReleaser} {h : Heap} (hwf : rel.WF h)
    (obj : Nat) :
    GLObjectReleaser.WF { rel with _objects := (refSetInsert rel._objects h obj).1 }
      (refSetInsert rel._objects h obj).2 := by
  by_cases hmem : obj ∈ rel._objects
  · simpa [refSetInsert, hmem] using hwf
  · simp only [refSetInsert, hmem, if_false]
    refine ⟨?_, hwf.2.1, ?_⟩
    · exact List.nodup_append.mpr ⟨hwf.1, List.nodup_singleton _, by
        intro a ha hb
        exact hmem (List.mem_singleton.mp hb ▸ ha)⟩
    · intro p hp
      simp only [List.count_append] at *
      by_cases hpo : p = obj
      · subst hpo
        have h0 : rel._objects.count p = 0 := List.count_eq_zero_of_not_mem hmem
        have ht : rel._temp.count p ≤ (h p).referenceCount := by
          by_cases hpt : p ∈ rel._temp
          · have := hwf.2.2 p (List.mem_append_right _ hpt)
            omega
          · rw [List.count_eq_zero_of_not_mem hpt]
            exact Nat.zero_le _
        simp only [h0, List.count_singleton_self, Heap.ref, Function.update_same,
          GLObject.referenceCount] at ht ⊢
        omega
      · have hp2 : p ∈ rel._objects ++ rel._temp := by
          simp only [List.mem_append, List.mem_singleton] at hp ⊢
          tauto
        have := hwf.2.2 p hp2
        have hc : [obj].count p = 0 :=
          List.count_eq_zero_of_not_mem (by simpa using hpo)
        simp only [hc, Heap.ref, Function.update_noteq hpo]
        omega

/-- `watch` keeps the set invariant of every releaser, and gives it to the releaser it
creates: every state reached by `watch` calls from one without releasers satisfies it. -/
theorem GLObjectReleaser.watch_WF (w : World) (hw : w.WF) (obj contextID : Nat) :
    (GLObjectReleaser.watch w obj contextID).WF := by
  intro c rel hrel
  unfold GLObjectReleaser.watch at hrel ⊢
  simp only at hrel ⊢
  by_cases hc : c = contextID
  · subst hc
    simp only [Function.update_same, Option.some.injEq] at hrel
    subst hrel
    cases hb : w._buf c with
    | none => exact (GLObjectReleaser.WF_empty w.heap).insert obj
    | some r => exact (hw c r hb).insert obj
  · rw [Function.update_noteq hc] at hrel
    exact (hw c rel hrel).mono (fun p => refSetInsert_refCount_le _ _ _ _)

/-- The sweep keeps the set invariant of its releaser. -/
theorem GLObjectReleaser.operatorCall_WF (rel : GLObjectReleaser) (h : Heap)
    (calls : List GLCall) (hwf : rel.WF h) :
    (rel.operatorCall h calls).1.WF (rel.operatorCall h calls).2.1 := by
  rw [rel.operatorCall_eq h calls hwf]
  refine ⟨hwf.1.filter _, hwf.1, ?_⟩
  intro p hp
  have hmem : p ∈ rel._objects := by
    simp only [List.mem_append, List.mem_filter] at hp
    tauto
  have h1 : rel._objects.count p = 1 := List.count_eq_one_of_mem hwf.1 hmem
  have hge := hwf.one_le_countAtSweep hmem
  by_cases hc : rel.countAtSweep h p = 1
  · have hc2 : (refSetClear rel._temp h p).referenceCount = 1 := hc
    have h0 : (rel._objects.filter (fun p => decide (rel.countAtSweep h p ≠ 1))).count p = 0 :=
      List.count_eq_zero_of_not_mem (by simp [List.mem_filter, hc])
    have hval : (sweepHeap rel._objects (refSetClear rel._temp h) p).referenceCount = 1 := by
      simp only [sweepHeap, hmem, if_true]
      rw [if_pos hc2]
      simp only [GLObject.referenceCount, GLObject.release_refCount]
      exact hc2
    simp only [h0, h1, hval]
    omega
  · have hc2 : ¬ (refSetClear rel._temp h p).referenceCount = 1 := hc
    have h0 : (rel._objects.filter (fun p => decide (rel.countAtSweep h p ≠ 1))).count p ≤ 1 :=
      List.nodup_iff_count_le_one.mp (hwf.1.filter
        (fun p => decide (rel.countAtSweep h p ≠ 1))) p
    have hval : (sweepHeap rel._objects (refSetClear rel._temp h) p).referenceCount =
        rel.countAtSweep h p + 1 := by
      simp only [sweepHeap, hmem, if_true]
      rw [if_neg hc2]
      rfl
    simp only [h1, hval]
    omega

/-! ## `releaseAll` -/

theorem releaseAllLoop_spec (objs : List Nat) :
    ∀ (h : Heap) (calls : List GLCall), objs.Nodup →
      releaseAllLoop objs h calls =
        ((fun q => if q ∈ objs then (h q).release.1 else h q),
          calls ++ objs.flatMap (fun p => (h p).release.2)) := by
  induction objs with
  | nil =>
    intro h calls _
    simp [releaseAllLoop]
  | cons p rest ih =>
    intro h calls hnd
    have hp : p ∉ rest := (List.nodup_cons.mp hnd).1
    have hsame : ∀ q ∈ rest, Function.update h p (h p).release.1 q = h q := by
      intro q hq
      have hqp : q ≠ p := fun e => hp (e ▸ hq)
      simp [Function.update_noteq hqp]
    have hfm : ∀ l : List Nat, (∀ q ∈ l, q ∈ rest) →
        l.flatMap (fun q => (Function.update h p (h p).release.1 q).release.2) =
        l.flatMap (fun q => (h q).release.2) := by
      intro l hl
      induction l with
      | nil => rfl
      | cons x xs ihx =>
        simp only [List.flatMap_cons]
        rw [hsame x (hl x (List.mem_cons_self _ _)),
          ihx (fun q hq => hl q (List.mem_cons_of_mem _ hq))]
    simp only [releaseAllLoop]
    rw [ih _ _ (List.nodup_cons.mp hnd).2, hfm rest (fun _ hq => hq)]
    simp only [List.flatMap_cons, List.append_assoc]
    congr 1
    funext q
    by_cases hqp : q = p
    · subst hqp
      simp [hp]
    · by_cases hqr : q ∈ rest
      · simp [hqp, hqr, Function.update_noteq hqp]
      · simp [hqp, hqr, Function.update_noteq hqp]

theorem GLObject.release_deletes (o : GLObject) (hv : o.name ≠ NO_NAME) :
    o.release.2.filter GLCall.isDelete = [o.deleteCall] := by
  unfold GLObject.release GLObject.deleteCall
  unfold GLObject.name at hv
  cases hd : o.derived with
  | buffer b =>
    rw [hd] at hv
    simp only at hv
    simp [GLBuffer.release, hv, GLCall.isDelete]
  | texture t =>
    rw [hd] at hv
    simp only at hv
    by_cases hh : t._handle = NO_HANDLE <;>
      simp [GLTexture.release, hv, hh, GLCall.isDelete]

theorem filter_flatMap_release (objs : List Nat) (h : Heap)
    (hv : ∀ p ∈ objs, (h p).name ≠ NO_NAME) :
    (objs.flatMap (fun p => (h p).release.2)).filter GLCall.isDelete =
      objs.map (fun p => (h p).deleteCall) := by
  induction objs with
  | nil => rfl
  | cons p rest ih =>
    simp only [List.flatMap_cons, List.filter_append, List.map_cons]
    rw [(h p).release_deletes (hv p (List.mem_cons_self _ _)),
      ih (fun q hq => hv q (List.mem_cons_of_mem _ hq))]
    rfl

/-- C4: for a releaser registered for a context and tracking `n` objects with valid
names, whatever their reference counts, `releaseAll` leaves it tracking nothing; the
device-delete calls it issues are one per tracked object, for that object's name and in
iteration order, so `n` in all; every one of these objects ends with the sentinel name. -/
theorem releaseAll_releases_everything (w : World) (contextID : Nat)
    (rel : GLObjectReleaser) (hreg : w._buf contextID = some rel)
    (hset : rel._objects.Nodup)
    (hvalid : ∀ p ∈ rel._objects, (w.heap p).name ≠ NO_NAME) :
    (GLObjectReleaser.releaseAll w contextID)._buf contextID =
      some { rel with _objects := [] } ∧
    (∃ issued, (GLObjectReleaser.releaseAll w contextID).calls = w.calls ++ issued ∧
      issued.filter GLCall.isDelete = rel._objects.map (fun p => (w.heap p).deleteCall) ∧
      issued.countP GLCall.isDelete = rel._objects.length) ∧
    (∀ p ∈ rel._objects, ((GLObjectReleaser.releaseAll w contextID).heap p).name = NO_NAME) := by
  have hf := filter_flatMap_release rel._objects w.heap hvalid
  refine ⟨?_, ⟨rel._objects.flatMap (fun p => (w.heap p).release.2), ?_, hf, ?_⟩, ?_⟩
  · simp [GLObjectReleaser.releaseAll, hreg]
  · simp [GLObjectReleaser.releaseAll, hreg, releaseAllLoop_spec _ _ _ hset]
  · rw [List.countP_eq_length_filter, hf, List.length_map]
  · intro p hp
    have hd : ((GLObjectReleaser.releaseAll w contextID).heap p).derived =
        (w.heap p).release.1.derived := by
      simp [GLObjectReleaser.releaseAll, hreg, releaseAllLoop_spec _ _ _ hset,
        refSetClear_derived, hp]
    have hn := (w.heap p).object_release_name
    unfold GLObject.name at hn ⊢
    rw [hd]
    exact hn

/-- C4 at the scenario of the specification: a releaser tracking 4 objects ends with 0
tracked and 4 device-delete calls issued. -/
theorem releaseAll_releases_everything_witness :
    fourWatched._buf 0 = some ⟨[0, 1, 2, 3], []⟩ ∧
    ((GLObjectReleaser.releaseAll fourWatched 0).releaser 0)._objects = [] ∧
    (GLObjectReleaser.releaseAll fourWatched 0).calls.countP GLCall.isDelete = 4 ∧
    (∀ p ∈ [0, 1, 2, 3], ((GLObjectReleaser.releaseAll fourWatched 0).heap p).name = NO_NAME) := by
  have hreg : fourWatched._buf 0 = some ⟨[0, 1, 2, 3], []⟩ := by decide
  have key := releaseAll_releases_everything fourWatched 0 ⟨[0, 1, 2, 3], []⟩ hreg
    (by decide) (by decide)
  refine ⟨hreg, ?_, ?_, key.2.2⟩
  · simp [World.releaser, key.1]
  · obtain ⟨issued, hcalls, _, hcount⟩ := key.2.1
    rw [hcalls, List.countP_append, hcount]
    decide

/-! ## The job arena: draining -/

theorem drainLoop_ran_extends (done : Bool) (timeSlice : Int) (start : Nat)
    (q : List Delegate) :
    ∀ (now : Nat) (ran : List Job),
      ∃ more, (drainLoop done timeSlice start q now ran).2.2 = ran ++ more := by
  induction q with
  | nil => intro now ran; exact ⟨[], by simp [drainLoop]⟩
  | cons next rest ih =>
    intro now ran
    cases done with
    | true => exact ⟨[], by simp [drainLoop]⟩
    | false =>
      cases next with
      | none => exact ⟨[], by simp [drainLoop]⟩
      | some job =>
        by_cases ht : timeSlice ≤ elapsedMs start (now + job.cost)
        · exact ⟨[job], by simp [drainLoop, ht]⟩
        · obtain ⟨more, hmore⟩ := ih (now + job.cost) (ran ++ [job])
          exact ⟨job :: more, by simp [drainLoop, ht, hmore]⟩

theorem drainLoop_closures (done : Bool) (timeSlice : Int) (start : Nat)
    (q : List Delegate) :
    ∀ (now : Nat) (ran : List Job),
      (drainLoop done timeSlice start q now ran).2.2 ++
          closures (drainLoop done timeSlice start q now ran).1 =
        ran ++ closures q := by
  induction q with
  | nil => intro now ran; simp [drainLoop]
  | cons next rest ih =>
    intro now ran
    cases done with
    | true => simp [drainLoop]
    | false =>
      cases next with
      | none => simp [drainLoop, closures]
      | some job =>
        by_cases ht : timeSlice ≤ elapsedMs start (now + job.cost)
        · simp [drainLoop, ht, closures]
        · have := ih (now + job.cost) (ran ++ [job])
          simp only [drainLoop, ht, if_false, Bool.false_eq_true] at this ⊢
          rw [this]
          simp [closures]

theorem drainLoop_jobs (timeSlice : Int) (start : Nat) (jobs : List Job) :
    ∀ (now : Nat) (ran : List Job),
      ∃ ex rest, jobs = ex ++ rest ∧
        drainLoop false timeSlice start (jobs.map some) now ran =
          (rest.map some, now + totalCost ex, ran ++ ex) ∧
        (rest ≠ [] → ex ≠ [] ∧ timeSlice ≤ elapsedMs start (now + totalCost ex)) ∧
        (∀ k, 0 < k → k < ex.length →
          elapsedMs start (now + totalCost (ex.take k)) < timeSlice) := by
  induction jobs with
  | nil =>
    intro now ran
    exact ⟨[], [], rfl, by simp [drainLoop, totalCost], by simp, by simp⟩
  | cons job js ih =>
    intro now ran
    by_cases ht : timeSlice ≤ elapsedMs start (now + job.cost)
    · refine ⟨[job], js, rfl, by simp [drainLoop, ht, totalCost], ?_, ?_⟩
      · intro _
        exact ⟨by simp, by simpa [totalCost] using ht⟩
      · intro k h0 h1
        simp at h1
        omega
    · obtain ⟨ex, rest, hsplit, hrun, hstop, hearly⟩ := ih (now + job.cost) (ran ++ [job])
      refine ⟨job :: ex, rest, by simp [hsplit], ?_, ?_, ?_⟩
      · simp only [List.map_cons, drainLoop, ht, if_false, Bool.false_eq_true]
        rw [hrun]
        simp [totalCost, Nat.add_assoc]
      · intro hne
        refine ⟨by simp, ?_⟩
        have := (hstop hne).2
        simpa [totalCost, Nat.add_assoc] using this
      · intro k h0 h1
        obtain ⟨k2, rfl⟩ : ∃ k2, k = k2 + 1 := ⟨k - 1, by omega⟩
        by_cases hk : k2 = 0
        · subst hk
          simpa [totalCost] using lt_of_not_le ht
        · have := hearly k2 (by omega) (by simpa using h1)
          simpa [totalCost, Nat.add_assoc] using this

/-- C5 as stated fails: a drain of an arena whose queue is not empty runs no closure when
the termination flag is set, and when the delegate at the front is empty. -/
theorem drain_nonempty_runs_nothing :
    (arenaDone._queue ≠ [] ∧ (arenaDone.operatorCall 0).ran = []) ∧
    (arenaEmptyFront._queue ≠ [] ∧ (arenaEmptyFront.operatorCall 0).ran = []) := by
  decide

/-- C5, amended: for every time slice (also 0 or below) and every arena whose termination
flag is clear and whose queue has a closure at the front, one drain runs that closure
first, whatever its cost, so it runs at least one closure. -/
theorem drain_runs_front_closure (a : GPUJobArena) (start : Nat) (job : Job)
    (rest : List Delegate) (hdone : a._done = false) (hq : a._queue = some job :: rest) :
    (∃ more, (a.operatorCall start).ran = job :: more) ∧
    1 ≤ (a.operatorCall start).ran.length := by
  have hex : ∃ more, (a.operatorCall start).ran = job :: more := by
    unfold GPUJobArena.operatorCall
    simp only [hq, hdone]
    by_cases ht : a._timeSlice ≤ elapsedMs start (start + job.cost)
    · exact ⟨[], by simp [drainLoop, ht]⟩
    · obtain ⟨more, hmore⟩ :=
        drainLoop_ran_extends false a._timeSlice start rest (start + job.cost) [job]
      exact ⟨more, by simp [drainLoop, ht, hmore]⟩
  refine ⟨hex, ?_⟩
  obtain ⟨more, hmore⟩ := hex
  simp [hmore]

/-- C5, amended, at a concrete input: a slice of 0 ms and a closure of 7 ms at the front;
the drain runs it. -/
theorem drain_runs_front_closure_witness :
    (⟨some 0, [some ⟨1, 7000000⟩, some ⟨2, 7000000⟩], 0, false⟩ : GPUJobArena)._done = false ∧
    ((∃ more, (GPUJobArena.operatorCall
        ⟨some 0, [some ⟨1, 7000000⟩, some ⟨2, 7000000⟩], 0, false⟩ 5).ran =
          (⟨1, 7000000⟩ : Job) :: more) ∧
      1 ≤ (GPUJobArena.operatorCall
        ⟨some 0, [some ⟨1, 7000000⟩, some ⟨2, 7000000⟩], 0, false⟩ 5).ran.length) :=
  ⟨rfl, drain_runs_front_closure
    ⟨some 0, [some ⟨1, 7000000⟩, some ⟨2, 7000000⟩], 0, false⟩ 5 ⟨1, 7000000⟩
    [some ⟨2, 7000000⟩] rfl rfl⟩

theorem GPUJobArena.dispatchAll_queue (dels : List Delegate) :
    ∀ a : GPUJobArena, (a.dispatchAll dels)._queue = a._queue ++ dels := by
  induction dels with
  | nil => intro a; simp [GPUJobArena.dispatchAll]
  | cons d ds ih =>
    intro a
    have hstep : a.dispatchAll (d :: ds) = (a.dispatch d).dispatchAll ds := rfl
    rw [hstep, ih]
    simp [GPUJobArena.dispatch]

theorem GPUJobArena.operatorCall_closures (a : GPUJobArena) (start : Nat) :
    (a.operatorCall start).ran ++ closures (a.operatorCall start).arena._queue =
      closures a._queue := by
  have := drainLoop_closures a._done a._timeSlice start a._queue start []
  simpa [GPUJobArena.operatorCall] using this

theorem GPUJobArena.drainMany_closures (starts : List Nat) :
    ∀ a : GPUJobArena,
      (a.drainMany starts).2 ++ closures (a.drainMany starts).1._queue = closures a._queue := by
  induction starts with
  | nil => intro a; simp [GPUJobArena.drainMany]
  | cons st sts ih =>
    intro a
    simp only [GPUJobArena.drainMany, List.append_assoc]
    rw [ih, a.operatorCall_closures st]

/-- C6: closures run in submission order.  After any dispatch calls and then any number
of drains, what the drains ran, in order, followed by the closures still queued, is the
sequence of closures that were queued and dispatched, in dispatch order; and each single
drain runs a front part of the closures in the queue, the rest staying queued in order. -/
theorem drain_preserves_dispatch_order (a : GPUJobArena) (dels : List Delegate)
    (starts : List Nat) (start : Nat) :
    (a.dispatchAll dels)._queue = a._queue ++ dels ∧
    ((a.dispatchAll dels).drainMany starts).2 ++
        closures ((a.dispatchAll dels).drainMany starts).1._queue =
      closures a._queue ++ closures dels ∧
    (a.operatorCall start).ran ++ closures (a.operatorCall start).arena._queue =
      closures a._queue := by
  refine ⟨GPUJobArena.dispatchAll_queue dels a, ?_, a.operatorCall_closures start⟩
  rw [GPUJobArena.drainMany_closures, GPUJobArena.dispatchAll_queue]
  simp [closures]

/-- C7 as stated fails: with an empty delegate at the front the drain returns with two
closures queued although no time of the 5 ms slice has elapsed. -/
theorem drain_stops_before_slice :
    closures (arenaStopsEarly.operatorCall 0).arena._queue = [⟨1, 1000000⟩, ⟨2, 1000000⟩] ∧
    (arenaStopsEarly.operatorCall 0).ran = [] ∧
    elapsedMs 0 (arenaStopsEarly.operatorCall 0).now < arenaStopsEarly._timeSlice := by
  decide

/-- C7, amended: for an arena whose termination flag is clear and whose queue holds
closures only, one drain runs a front part of the queue and leaves the rest queued; the
clock advances by the cost of what ran; it returns with closures queued only if the whole
milliseconds elapsed after the last closure it ran reach the slice; and after every
closure it ran before the last one the elapsed milliseconds were below the slice. -/
theorem drain_stops_exactly (a : GPUJobArena) (start : Nat) (jobs : List Job)
    (hdone : a._done = false) (hq : a._queue = jobs.map some) :
    (∃ rest, jobs = (a.operatorCall start).ran ++ rest ∧
      (a.operatorCall start).arena._queue = rest.map some) ∧
    (a.operatorCall start).now = start + totalCost (a.operatorCall start).ran ∧
    ((a.operatorCall start).arena._queue ≠ [] →
      (a.operatorCall start).ran ≠ [] ∧
      a._timeSlice ≤ elapsedMs start (a.operatorCall start).now) ∧
    (∀ k, 0 < k → k < (a.operatorCall start).ran.length →
      elapsedMs start (start + totalCost ((a.operatorCall start).ran.take k)) <
        a._timeSlice) := by
  obtain ⟨ex, rest, hsplit, hrun, hstop, hearly⟩ := drainLoop_jobs a._timeSlice start jobs start []
  have hr : (a.operatorCall start).ran = ex := by
    simp [GPUJobArena.operatorCall, hq, hdone, hrun]
  have hn : (a.operatorCall start).now = start + totalCost ex := by
    simp [GPUJobArena.operatorCall, hq, hdone, hrun]
  have hqueue : (a.operatorCall start).arena._queue = rest.map some := by
    simp [GPUJobArena.operatorCall, hq, hdone, hrun]
  rw [hr, hn, hqueue]
  refine ⟨⟨rest, hsplit, rfl⟩, rfl, ?_, hearly⟩
  intro hne
  exact hstop (by simpa using hne)

/-- C7, amended, at the scenario of the specification: a slice of 5 ms and 10 queued
closures of 1 ms each; the drain runs 5 closures and leaves 5 queued. -/
theorem drain_stops_exactly_witness :
    arenaTenJobs._done = false ∧ arenaTenJobs._queue = tenJobs.map some ∧
    (arenaTenJobs.operatorCall 0).ran.length = 5 ∧
    (arenaTenJobs.operatorCall 0).arena._queue.length = 5 ∧
    (arenaTenJobs.operatorCall 0).now = 0 + totalCost (arenaTenJobs.operatorCall 0).ran ∧
    ((arenaTenJobs.operatorCall 0).ran ≠ [] ∧
      arenaTenJobs._timeSlice ≤ elapsedMs 0 (arenaTenJobs.operatorCall 0).now) :=
  ⟨rfl, rfl, by decide, by decide,
    (drain_stops_exactly arenaTenJobs 0 tenJobs rfl rfl).2.1,
    (drain_stops_exactly arenaTenJobs 0 tenJobs rfl rfl).2.2.1 (by decide)⟩

/-! ## The job arena: binding to a graphics context -/

theorem count_filter_ne_self (op : Operation) (l : List Operation) :
    (l.filter (fun o => decide (o ≠ op))).count op = 0 :=
  List.count_eq_zero_of_not_mem (by simp [List.mem_filter])

/-- After `setGraphicsContext gc` the bound context is `gc`, and an arena that was
registered with its bound context only, once, is so again. -/
theorem GPUJobArena.setGraphicsContext_registered (this : Nat) (a : GPUJobArena)
    (ops : Nat → List Operation) (gc : Option Nat) (hreg : a.Registered this ops) :
    (GPUJobArena.setGraphicsContext this a ops gc).arena._gc = gc ∧
    (GPUJobArena.setGraphicsContext this a ops gc).arena.Registered this
      (GPUJobArena.setGraphicsContext this a ops gc).operations := by
  unfold GPUJobArena.setGraphicsContext
  by_cases hcond : gc ≠ a._gc ∨ gc = none
  · rw [if_pos hcond]
    cases hold : a._gc with
    | none =>
      cases gc with
      | none =>
        refine ⟨rfl, ?_⟩
        intro g
        have hr := hreg g
        simpa [hold] using hr
      | some g0 =>
        refine ⟨rfl, ?_⟩
        intro g
        have hr := hreg g
        by_cases hg : g = g0
        · subst hg
          simp [hold] at hr
          simp [gcAdd, List.count_append, hr]
        · have hg2 : g0 ≠ g := fun e => hg e.symm
          simp [hold] at hr
          simp [gcAdd, Function.update_noteq hg, hr, hg2]
    | some old =>
      cases gc with
      | none =>
        refine ⟨rfl, ?_⟩
        intro g
        have hr := hreg g
        by_cases hg : g = old
        · subst hg
          have hz := count_filter_ne_self (Operation.arena this) (ops g)
          simpa [gcRemove] using hz
        · have hg2 : old ≠ g := fun e => hg e.symm
          simp [hold, hg2] at hr
          simp [gcRemove, Function.update_noteq hg, hr]
      | some g0 =>
        have hne : g0 ≠ old := by
          intro e
          rcases hcond with h1 | h1
          · exact h1 (by rw [hold, e])
          · exact Option.noConfusion h1
        refine ⟨rfl, ?_⟩
        intro g
        have hr := hreg g
        by_cases hg : g = g0
        · subst hg
          have hog : old ≠ g := fun e => hne e.symm
          simp [hold, hog] at hr
          simp [gcAdd, gcRemove, Function.update_noteq hne, List.count_append, hr]
        · have hg2 : g0 ≠ g := fun e => hg e.symm
          by_cases hgo : g = old
          · subst hgo
            have hz := count_filter_ne_self (Operation.arena this) (ops g)
            simpa [gcAdd, gcRemove, Function.update_noteq hg, hg2] using hz
          · have hog : old ≠ g := fun e => hgo e.symm
            simp [hold, hog] at hr
            simp [gcAdd, gcRemove, Function.update_noteq hg, Function.update_noteq hgo,
              hr, hg2]
  · rw [if_neg hcond]
    refine ⟨?_, hreg⟩
    by_contra hne
    exact hcond (Or.inl (fun e => hne e.symm))

/-- C8: rebinding detaches first.  For an arena bound to `A` and registered with `A`
only, `setGraphicsContext(B)` with `B ≠ A` removes the arena from `A` and then adds it to
`B`; afterwards its bound context is `B`, it is registered once with `B` and with no
other context.  Binding to `A` again makes no call and changes nothing, and binding to
the null context leaves the arena registered with no context. -/
theorem setGraphicsContext_rebinds (this : Nat) (a : GPUJobArena)
    (ops : Nat → List Operation) (A B : Nat) (hA : a._gc = some A)
    (hreg : a.Registered this ops) (hAB : B ≠ A) :
    ((GPUJobArena.setGraphicsContext this a ops (some B)).gcCalls =
        [GCCall.remove A (Operation.arena this), GCCall.add B (Operation.arena this)] ∧
      (GPUJobArena.setGraphicsContext this a ops (some B)).arena._gc = some B ∧
      (∀ g, ((GPUJobArena.setGraphicsContext this a ops (some B)).operations g).count
        (Operation.arena this) = if g = B then 1 else 0)) ∧
    ((GPUJobArena.setGraphicsContext this a ops (some A)).arena = a ∧
      (GPUJobArena.setGraphicsContext this a ops (some A)).operations = ops ∧
      (GPUJobArena.setGraphicsContext this a ops (some A)).gcCalls = []) ∧
    ((GPUJobArena.setGraphicsContext this a ops none).arena._gc = none ∧
      (GPUJobArena.setGraphicsContext this a ops none).gcCalls =
        [GCCall.remove A (Operation.arena this)] ∧
      ∀ g, Operation.arena this ∉ (GPUJobArena.setGraphicsContext this a ops none).operations g) := by
  have hB := GPUJobArena.setGraphicsContext_registered this a ops (some B) hreg
  have h0 := GPUJobArena.setGraphicsContext_registered this a ops none hreg
  refine ⟨⟨?_, hB.1, ?_⟩, ?_, h0.1, ?_, ?_⟩
  · have hne : ¬ (some B = some A) := fun e => hAB (Option.some.inj e)
    simp [GPUJobArena.setGraphicsContext, hA, hne]
  · intro g
    have := hB.2 g
    rw [hB.1] at this
    rw [this]
    by_cases hg : g = B
    · simp [hg]
    · have hg2 : B ≠ g := fun e => hg e.symm
      simp [hg, hg2]
  · simp [GPUJobArena.setGraphicsContext, hA]
  · simp [GPUJobArena.setGraphicsContext, hA]
  · intro g
    have := h0.2 g
    rw [h0.1] at this
    exact List.count_eq_zero.mp (by simpa using this)

theorem arenaBound_registered : arenaBound.Registered 0 opsBound := by
  intro g
  by_cases hg : g = 1
  · subst hg
    decide
  · have hg2 : ¬ (1 = g) := fun e => hg e.symm
    simp [opsBound, arenaBound, hg, hg2]

/-- C8 at a concrete input: the arena bound to context 1 is rebound to context 2; the
calls are a removal from context 1 then an addition to context 2. -/
theorem setGraphicsContext_rebinds_witness :
    arenaBound._gc = some 1 ∧ (2 : Nat) ≠ 1 ∧
    (GPUJobArena.setGraphicsContext 0 arenaBound opsBound (some 2)).gcCalls =
      [GCCall.remove 1 (Operation.arena 0), GCCall.add 2 (Operation.arena 0)] ∧
    (GPUJobArena.setGraphicsContext 0 arenaBound opsBound (some 2)).arena._gc = some 2 ∧
    (GPUJobArena.setGraphicsContext 0 arenaBound opsBound (some 2)).operations 1 =
      [Operation.releaser 1] ∧
    (GPUJobArena.setGraphicsContext 0 arenaBound opsBound (some 2)).operations 2 =
      [Operation.releaser 2, Operation.arena 0] :=
  ⟨rfl, by decide,
    (setGraphicsContext_rebinds 0 arenaBound opsBound 1 2 rfl arenaBound_registered
      (by decide)).1.1,
    (setGraphicsContext_rebinds 0 arenaBound opsBound 1 2 rfl arenaBound_registered
      (by decide)).1.2.1,
    by decide, by decide⟩

/-! ## Texture residency -/

/-- `makeResident` with the toggle equal to the current flag issues the demotion call,
whatever the flag. -/
theorem GLTexture.makeResident_same (t : GLTexture) :
    t.makeResident t._isResident =
      (t, [GLCall.glMakeTextureHandleNonResident t._handle]) := by
  simp [GLTexture.makeResident]

/-- C9, at the failing input: `makeResident(true)` on a texture that is resident issues
`glMakeTextureHandleNonResident` on its handle and leaves the flag set; a call was made
although the state did not change. -/
theorem makeResident_unchanged_issues_call :
    (GLTexture.makeResident ⟨3553, 9, 1234, true⟩ true).2 =
      [GLCall.glMakeTextureHandleNonResident 1234] ∧
    (GLTexture.makeResident ⟨3553, 9, 1234, true⟩ true).1 = ⟨3553, 9, 1234, true⟩ ∧
    (GLTexture.makeResident ⟨3553, 9, 1234, false⟩ false).2 =
      [GLCall.glMakeTextureHandleNonResident 1234] := by
  decide

/-! ## The time-slice override -/

theorem clamp_bounds (x lo hi : Int) (hlh : lo ≤ hi) : lo ≤ clamp x lo hi ∧ clamp x lo hi ≤ hi := by
  unfold clamp
  split
  · exact ⟨le_refl _, hlh⟩
  · split
    · exact ⟨hlh, le_refl _⟩
    · constructor <;> omega

theorem atoiDigits_of_allDigits (cs : List Char) :
    ∀ (acc n : Nat), allDigitsValue acc cs = some n → atoiDigits acc cs = n := by
  induction cs with
  | nil =>
    intro acc n h
    simpa [allDigitsValue, atoiDigits] using h
  | cons c cs ih =>
    intro acc n h
    by_cases hd : c.isDigit = true
    · simp only [allDigitsValue, hd, if_true] at h
      simp only [atoiDigits, hd, if_true]
      exact ih _ _ h
    · simp [allDigitsValue, hd] at h

theorem isspace_of_isDigit (c : Char) (hd : c.isDigit = true) : isspace c = false := by
  have h48 : 48 ≤ c.toNat := by
    have := hd
    simp only [Char.isDigit, Bool.and_eq_true, decide_eq_true_eq] at this
    exact this.1
  unfold isspace
  have e1 : c ≠ ' ' := by rintro rfl; revert h48; decide
  have e2 : c ≠ '\t' := by rintro rfl; revert h48; decide
  have e3 : c ≠ '\n' := by rintro rfl; revert h48; decide
  have e4 : c ≠ '\r' := by rintro rfl; revert h48; decide
  have e5 : c.toNat ≠ 11 := by omega
  have e6 : c.toNat ≠ 12 := by omega
  simp [e1, e2, e3, e4, e5, e6]

/-- On a valid integer `strtol` reads its value. -/
theorem strtolValue_of_validInteger (s : List Char) (n : Int)
    (h : validInteger s = some n) : strtolValue s = n := by
  cases s with
  | nil => simp [validInteger] at h
  | cons c cs =>
    by_cases hm : c = '-'
    · subst hm
      by_cases hcs : cs = []
      · simp [validInteger, hcs] at h
      · cases hv : allDigitsValue 0 cs with
        | none => simp [validInteger, hcs, hv] at h
        | some m =>
          simp [validInteger, hcs, hv] at h
          have hsp : isspace '-' = false := by decide
          simp [strtolValue, List.dropWhile, hsp, atoiDigits_of_allDigits cs 0 m hv, h]
    · by_cases hp : c = '+'
      · subst hp
        have hne : ¬ ('+' = '-') := by decide
        by_cases hcs : cs = []
        · simp [validInteger, hcs] at h
        · cases hv : allDigitsValue 0 cs with
          | none => simp [validInteger, hcs, hv] at h
          | some m =>
            simp [validInteger, hcs, hv] at h
            have hsp : isspace '+' = false := by decide
            simp [strtolValue, List.dropWhile, hsp, atoiDigits_of_allDigits cs 0 m hv, h]
      · cases hv : allDigitsValue 0 (c :: cs) with
        | none => simp [validInteger, hm, hp, hv] at h
        | some m =>
          simp [validInteger, hm, hp, hv] at h
          have hd : c.isDigit = true := by
            by_contra hd
            simp [allDigitsValue, hd] at hv
          have hsp := isspace_of_isDigit c hd
          have hval := atoiDigits_of_allDigits (c :: cs) 0 m hv
          simp [strtolValue, List.dropWhile, hsp, hm, hp, hval, h]

theorem toInt32_saturateLong_of_int (n : Int) (h1 : -2147483648 ≤ n) (h2 : n ≤ 2147483647) :
    toInt32 (saturateLong n) = n := by
  unfold toInt32 saturateLong
  split_ifs <;> omega

/-- On a valid integer in the range of `int`, `atoi` returns its value. -/
theorem atoi_of_validInteger (s : List Char) (n : Int) (h : validInteger s = some n)
    (h1 : -2147483648 ≤ n) (h2 : n ≤ 2147483647) : atoi s = n := by
  unfold atoi
  rw [strtolValue_of_validInteger s n h, toInt32_saturateLong_of_int n h1 h2]

/-- C10 as stated fails: for the values "abc" and "" the constructor sets a slice of
1 ms, where the reference definition gives the default of 2 ms. -/
theorem timeSlice_invalid_value_not_default :
    (GPUJobArena.new (some ['a', 'b', 'c']))._timeSlice = 1 ∧
    specTimeSlice (some ['a', 'b', 'c']) = 2 ∧
    (GPUJobArena.new (some []))._timeSlice = 1 ∧
    specTimeSlice (some []) = 2 := by
  decide

/-- C10, amended: the slice after construction is always within 1..1000 ms; it is the
default of 2 ms when the variable is absent; when the variable is set it is `atoi` of the
value clamped to 1..1000, which is the clamped integer when the value is a valid integer
in the range of `int` (the reference definition then agrees), the clamped conversion to
`int` of any valid integer, and 1 ms when the value is empty or starts with a character
that is no white space, sign or digit. -/
theorem timeSlice_after_construction (getenv : Option (List Char)) :
    (1 ≤ (GPUJobArena.new getenv)._timeSlice ∧ (GPUJobArena.new getenv)._timeSlice ≤ 1000) ∧
    (getenv = none → (GPUJobArena.new getenv)._timeSlice = 2) ∧
    (∀ value, getenv = some value →
      (GPUJobArena.new getenv)._timeSlice = clamp (atoi value) 1 1000) ∧
    (∀ value n, getenv = some value → validInteger value = some n →
      -2147483648 ≤ n ∧ n ≤ 2147483647 →
      (GPUJobArena.new getenv)._timeSlice = clamp n 1 1000 ∧
      (GPUJobArena.new getenv)._timeSlice = specTimeSlice getenv) ∧
    (∀ value, getenv = some value →
      (value = [] ∨ ∃ c cs, value = c :: cs ∧ isspace c = false ∧ c ≠ '-' ∧ c ≠ '+' ∧
        c.isDigit = false) →
      (GPUJobArena.new getenv)._timeSlice = 1) ∧
    (∀ value n, getenv = some value → validInteger value = some n →
      (GPUJobArena.new getenv)._timeSlice = clamp (toInt32 (saturateLong n)) 1 1000) := by
  refine ⟨?_, ?_, ?_, ?_, ?_, ?_⟩
  · cases getenv with
    | none => simp [GPUJobArena.new]
    | some v => exact clamp_bounds _ 1 1000 (by decide)
  · rintro rfl
    rfl
  · rintro value rfl
    rfl
  · rintro value n rfl hv hr
    have := atoi_of_validInteger value n hv hr.1 hr.2
    simp [GPUJobArena.new, specTimeSlice, hv, this]
  · rintro value rfl hbad
    have h0 : strtolValue value = 0 := by
      rcases hbad with rfl | ⟨c, cs, rfl, hsp, hm, hp, hd⟩
      · rfl
      · simp [strtolValue, List.dropWhile, hsp, hm, hp, atoiDigits, hd]
    have h1 : atoi value = 0 := by
      unfold atoi
      rw [h0]
      decide
    simp [GPUJobArena.new, h1, clamp]
  · rintro value n rfl hv
    simp [GPUJobArena.new, atoi, strtolValue_of_validInteger value n hv]

/-- C10, amended, at concrete inputs: the values "250", "5000" and "-3" are valid
integers in the range of `int` and give 250, 1000 and 1 ms; the value "?" gives 1 ms;
the valid integer "2147483648", outside the range of `int`, gives 1 ms. -/
theorem timeSlice_after_construction_witness :
    (validInteger ['2', '5', '0'] = some 250 ∧
      (GPUJobArena.new (some ['2', '5', '0']))._timeSlice = 250) ∧
    (validInteger ['5', '0', '0', '0'] = some 5000 ∧
      (GPUJobArena.new (some ['5', '0', '0', '0']))._timeSlice = 1000) ∧
    (validInteger ['-', '3'] = some (-3) ∧ (GPUJobArena.new (some ['-', '3']))._timeSlice = 1) ∧
    (GPUJobArena.new (some ['?']))._timeSlice = 1 ∧
    (GPUJobArena.new none)._timeSlice = 2 ∧
    (validInteger ['2', '1', '4', '7', '4', '8', '3', '6', '4', '8'] = some 2147483648 ∧
      (GPUJobArena.new (some ['2', '1', '4', '7', '4', '8', '3', '6', '4', '8']))._timeSlice
        = 1) :=
  ⟨⟨by decide, ((timeSlice_after_construction (some ['2', '5', '0'])).2.2.2.1
      ['2', '5', '0'] 250 rfl (by decide) (by decide)).1.trans (by decide)⟩,
    ⟨by decide, ((timeSlice_after_construction (some ['5', '0', '0', '0'])).2.2.2.1
      ['5', '0', '0', '0'] 5000 rfl (by decide) (by decide)).1.trans (by decide)⟩,
    ⟨by decide, ((timeSlice_after_construction (some ['-', '3'])).2.2.2.1
      ['-', '3'] (-3) rfl (by decide) (by decide)).1.trans (by decide)⟩,
    (timeSlice_after_construction (some ['?'])).2.2.2.2.1 ['?'] rfl
      (Or.inr ⟨'?', [], rfl, by decide, by decide, by decide, by decide⟩),
    (timeSlice_after_construction none).2.1 rfl,
    ⟨by decide, ((timeSlice_after_construction
      (some ['2', '1', '4', '7', '4', '8', '3', '6', '4', '8'])).2.2.2.2.2
      ['2', '1', '4', '7', '4', '8', '3', '6', '4', '8'] 2147483648 rfl (by decide)).trans
      (by decide)⟩⟩

/-- Outside the range of `int` the conversion decides the slice: "2147483648" gives 1 ms
and "-2147483649" gives 1000 ms. -/
theorem timeSlice_outside_int_range :
    (GPUJobArena.new (some ['2', '1', '4', '7', '4', '8', '3', '6', '4', '8']))._timeSlice = 1 ∧
    (GPUJobArena.new
      (some ['-', '2', '1', '4', '7', '4', '8', '3', '6', '4', '9']))._timeSlice = 1000 := by
  decide

/-! ## The first release of a texture -/

/-- C13 as stated fails: a texture whose handle was resolved and that is not resident
gets the demotion call on release, and a texture flagged resident whose handle is not
resolved gets none. -/
theorem texture_release_demotes_by_handle :
    (GLTexture.release ⟨3553, 9, 1234, false⟩).2 =
      [GLCall.glMakeTextureHandleNonResident 1234, GLCall.glDeleteTextures 9] ∧
    (GLTexture.release ⟨3553, 9, NO_HANDLE, true⟩).2 = [GLCall.glDeleteTextures 9] := by
  decide

/-- C13, amended: for every unreleased texture, the first `release()` issues the
demotion call if and only if the bindless handle is resolved at that time, whatever the
residency flag; the demotion comes before the delete call; name and handle end at their
sentinels; a texture whose handle is not resolved is deleted with no residency call. -/
theorem texture_first_release (t : GLTexture) (hname : t._name ≠ NO_NAME) :
    t.release.2 =
      (if t._handle ≠ NO_HANDLE then [GLCall.glMakeTextureHandleNonResident t._handle] else [])
        ++ [GLCall.glDeleteTextures t._name] ∧
    (GLCall.glMakeTextureHandleNonResident t._handle ∈ t.release.2 ↔ t._handle ≠ NO_HANDLE) ∧
    (t._handle = NO_HANDLE → ∀ c ∈ t.release.2, c.isResidency = false) ∧
    t.release.1._name = NO_NAME ∧ t.release.1._handle = NO_HANDLE ∧
    t.release.1._isResident = t._isResident := by
  by_cases hh : t._handle = NO_HANDLE
  · simp [GLTexture.release, hname, hh, GLCall.isResidency]
  · simp [GLTexture.release, hname, hh]

/-- C13, amended, at concrete inputs: a resident texture with a resolved handle, and a
texture whose handle is not resolved. -/
theorem texture_first_release_witness :
    (⟨3553, 9, 1234, true⟩ : GLTexture)._name ≠ NO_NAME ∧
    (GLTexture.release ⟨3553, 9, 1234, true⟩).2 =
      [GLCall.glMakeTextureHandleNonResident 1234, GLCall.glDeleteTextures 9] ∧
    (GLTexture.release ⟨3553, 9, NO_HANDLE, false⟩).2 = [GLCall.glDeleteTextures 9] :=
  ⟨by decide,
    (texture_first_release ⟨3553, 9, 1234, true⟩ (by decide)).1.trans (by decide),
    (texture_first_release ⟨3553, 9, NO_HANDLE, false⟩ (by decide)).1.trans (by decide)⟩

/-! ## Resolving the bindless handle -/

theorem GLTexture.handle_resolved (t : GLTexture) (d : Nat) (ht : t._handle ≠ NO_HANDLE) :
    t.handle d = (t, t._handle, []) := by
  simp [GLTexture.handle, ht]

theorem GLTexture.handleN_resolved (ds : List Nat) (t : GLTexture)
    (ht : t._handle ≠ NO_HANDLE) :
    GLTexture.handleN ds t = (t, List.replicate ds.length t._handle, []) := by
  induction ds with
  | nil => rfl
  | cons d ds ih =>
    simp [GLTexture.handleN, GLTexture.handle_resolved t d ht, ih, List.replicate_succ]

/-- C14 as stated fails: when the device answers the first resolve with `~0ULL`, the
second call of `handle()` resolves again and returns another value. -/
theorem handle_resolves_again_after_sentinel :
    (GLTexture.handleN [NO_HANDLE, 77] ⟨3553, 9, NO_HANDLE, false⟩).2.1 = [NO_HANDLE, 77] ∧
    (GLTexture.handleN [NO_HANDLE, 77] ⟨3553, 9, NO_HANDLE, false⟩).2.2.countP
      GLCall.isResolve = 2 := by
  decide

/-- C14, amended: for a texture whose handle is not resolved, the first `handle()` binds
the texture, issues one resolve call and returns the device's answer `d`; when `d` is not
the sentinel `~0ULL`, every later call returns `d` and issues no device call, so the
calls of the whole sequence are the bind and the one resolve, and the texture keeps `d`. -/
theorem handle_resolves_once (t : GLTexture) (d : Nat) (ds : List Nat)
    (ht : t._handle = NO_HANDLE) (hd : d ≠ NO_HANDLE) :
    t.handle d =
      ({ t with _handle := d }, d,
        [GLCall.glBindTexture t._target t._name, GLCall.glGetTextureHandle t._name]) ∧
    (GLTexture.handleN (d :: ds) t).2.1 = List.replicate (ds.length + 1) d ∧
    (GLTexture.handleN (d :: ds) t).2.2 =
      [GLCall.glBindTexture t._target t._name, GLCall.glGetTextureHandle t._name] ∧
    (GLTexture.handleN (d :: ds) t).2.2.countP GLCall.isResolve = 1 ∧
    (GLTexture.handleN (d :: ds) t).1 = { t with _handle := d } := by
  have h1 : t.handle d =
      ({ t with _handle := d }, d,
        [GLCall.glBindTexture t._target t._name, GLCall.glGetTextureHandle t._name]) := by
    simp [GLTexture.handle, ht, GLTexture.bind]
  have h2 := GLTexture.handleN_resolved ds { t with _handle := d } hd
  refine ⟨h1, ?_, ?_, ?_, ?_⟩
  · simp [GLTexture.handleN, h1, h2, List.replicate_succ]
  · simp [GLTexture.handleN, h1, h2]
  · simp [GLTexture.handleN, h1, h2, GLCall.isResolve]
  · simp [GLTexture.handleN, h1, h2]

/-- C14, amended, at a concrete input: three calls of `handle()` on a fresh texture the
device answers with 4096; all return 4096 and one resolve call is issued. -/
theorem handle_resolves_once_witness :
    (⟨3553, 9, NO_HANDLE, false⟩ : GLTexture)._handle = NO_HANDLE ∧ (4096 : Nat) ≠ NO_HANDLE ∧
    (GLTexture.handleN [4096, 5, 6] ⟨3553, 9, NO_HANDLE, false⟩).2.1 = [4096, 4096, 4096] ∧
    (GLTexture.handleN [4096, 5, 6] ⟨3553, 9, NO_HANDLE, false⟩).2.2.countP
      GLCall.isResolve = 1 :=
  ⟨rfl, by decide,
    (handle_resolves_once ⟨3553, 9, NO_HANDLE, false⟩ 4096 [5, 6] rfl (by decide)).2.1,
    (handle_resolves_once ⟨3553, 9, NO_HANDLE, false⟩ 4096 [5, 6] rfl (by decide)).2.2.2.1⟩

/-! ## An empty delegate at the front of the queue -/

theorem GLObjectReleaser.watch_buf_other (w : World) (obj contextID c : Nat)
    (hc : c ≠ contextID) : (GLObjectReleaser.watch w obj contextID)._buf c = w._buf c := by
  simp [GLObjectReleaser.watch, Function.update_noteq hc]

theorem GLObjectReleaser.watch_calls (w : World) (obj contextID : Nat) :
    (GLObjectReleaser.watch w obj contextID).calls = w.calls := rfl

/-- Watching an object that the releaser of the context does not hold appends it to the
tracked set and takes a reference on it. -/
theorem GLObjectReleaser.watch_untracked (w : World) (obj contextID : Nat)
    (hnew : ∀ rel, w._buf contextID = some rel → obj ∉ rel._objects) :
    (GLObjectReleaser.watch w obj contextID)._buf contextID =
      some { _objects := (w.releaser contextID)._objects ++ [obj],
             _temp := (w.releaser contextID)._temp } ∧
    (GLObjectReleaser.watch w obj contextID).heap = w.heap.ref obj := by
  cases hb : w._buf contextID with
  | none => simp [GLObjectReleaser.watch, World.releaser, hb, refSetInsert]
  | some rel =>
    have hn := hnew rel hb
    simp [GLObjectReleaser.watch, World.releaser, hb, refSetInsert, hn]

/-- Watching an object that the releaser of the context holds changes nothing. -/
theorem GLObjectReleaser.watch_tracked (w : World) (obj contextID : Nat)
    (rel : GLObjectReleaser) (hb : w._buf contextID = some rel) (hmem : obj ∈ rel._objects) :
    (GLObjectReleaser.watch w obj contextID)._buf = w._buf ∧
    (GLObjectReleaser.watch w obj contextID).heap = w.heap ∧
    (GLObjectReleaser.watch w obj contextID).operations = w.operations := by
  refine ⟨?_, ?_, ?_⟩
  · simp only [GLObjectReleaser.watch, hb, refSetInsert, hmem, if_true]
    rw [← hb]
    exact Function.update_eq_self _ _
  · simp [GLObjectReleaser.watch, hb, refSetInsert, hmem]
  · simp [GLObjectReleaser.watch, hb]

theorem GLObjectReleaser.watch_operations (w : World) (obj contextID : Nat) :
    (GLObjectReleaser.watch w obj contextID).operations =
      match w._buf contextID with
      | some _ => w.operations
      | none => Function.update w.operations contextID
          (w.operations contextID ++ [Operation.releaser contextID]) := by
  cases hb : w._buf contextID <;> simp [GLObjectReleaser.watch, hb]

/-- C11: construction of a `GLBuffer` and of a `GLTexture` at an address no releaser
holds.  When the device leaves the sentinel `~0` as the name, the object has an invalid
name, only the generate call was issued (no bind, no label), and no releaser or
operation list has changed, so no releaser holds the object; with any other name the
object has that name, was bound and labelled, and the releaser of its context holds it
exactly once, the releasers of the other contexts being unchanged. -/
theorem construction_registers_valid_only (w : World) (this target contextID : Nat)
    (label : String) (genName : Nat)
    (hfresh : ∀ c rel, w._buf c = some rel → this ∉ rel._objects) :
    (genName = NO_NAME →
      (((GLBuffer.new w this target contextID label genName).heap this).name = NO_NAME ∧
        (GLBuffer.new w this target contextID label genName).calls =
          w.calls ++ [GLCall.glGenBuffers] ∧
        (GLBuffer.new w this target contextID label genName)._buf = w._buf ∧
        (GLBuffer.new w this target contextID label genName).operations = w.operations ∧
        ∀ c rel, (GLBuffer.new w this target contextID label genName)._buf c = some rel →
          this ∉ rel._objects) ∧
      (((GLTexture.new w this target contextID label genName).heap this).name = NO_NAME ∧
        (GLTexture.new w this target contextID label genName).calls =
          w.calls ++ [GLCall.glGenTextures] ∧
        (GLTexture.new w this target contextID label genName)._buf = w._buf ∧
        (GLTexture.new w this target contextID label genName).operations = w.operations ∧
        ∀ c rel, (GLTexture.new w this target contextID label genName)._buf c = some rel →
          this ∉ rel._objects)) ∧
    (genName ≠ NO_NAME →
      (((GLBuffer.new w this target contextID label genName).heap this).name = genName ∧
        (GLBuffer.new w this target contextID label genName).calls =
          w.calls ++ [GLCall.glGenBuffers, GLCall.glBindBuffer target genName,
            GLCall.debugObjectLabel GL_BUFFER genName label] ∧
        (∃ rel, (GLBuffer.new w this target contextID label genName)._buf contextID = some rel ∧
          rel._objects.count this = 1) ∧
        ∀ c, c ≠ contextID →
          (GLBuffer.new w this target contextID label genName)._buf c = w._buf c) ∧
      (((GLTexture.new w this target contextID label genName).heap this).name = genName ∧
        (GLTexture.new w this target contextID label genName).calls =
          w.calls ++ [GLCall.glGenTextures, GLCall.glBindTexture target genName,
            GLCall.debugObjectLabel GL_TEXTURE genName label] ∧
        (∃ rel, (GLTexture.new w this target contextID label genName)._buf contextID = some rel ∧
          rel._objects.count this = 1) ∧
        ∀ c, c ≠ contextID →
          (GLTexture.new w this target contextID label genName)._buf c = w._buf c)) := by
  have hcount : (w.releaser contextID)._objects.count this = 0 := by
    apply List.count_eq_zero_of_not_mem
    cases hb : w._buf contextID with
    | none => simp [World.releaser, hb]
    | some rel => simpa [World.releaser, hb] using hfresh contextID rel hb
  constructor
  · intro hg
    subst hg
    refine ⟨⟨?_, ?_, ?_, ?_, ?_⟩, ⟨?_, ?_, ?_, ?_, ?_⟩⟩
    · simp [GLBuffer.new, GLObject.name]
    · simp [GLBuffer.new]
    · simp [GLBuffer.new]
    · simp [GLBuffer.new]
    · intro c rel hrel
      exact hfresh c rel (by simpa [GLBuffer.new] using hrel)
    · simp [GLTexture.new, GLObject.name]
    · simp [GLTexture.new]
    · simp [GLTexture.new]
    · simp [GLTexture.new]
    · intro c rel hrel
      exact hfresh c rel (by simpa [GLTexture.new] using hrel)
  · intro hg
    have key : ∀ (h2 : Heap) (c2 : List GLCall),
        (GLObjectReleaser.watch
            { heap := h2, _buf := w._buf, operations := w.operations, calls := c2 }
            this contextID)._buf contextID =
          some { _objects := (w.releaser contextID)._objects ++ [this],
                 _temp := (w.releaser contextID)._temp } ∧
        (GLObjectReleaser.watch
            { heap := h2, _buf := w._buf, operations := w.operations, calls := c2 }
            this contextID).heap = h2.ref this :=
      fun h2 c2 => GLObjectReleaser.watch_untracked
        { heap := h2, _buf := w._buf, operations := w.operations, calls := c2 }
        this contextID (hfresh contextID)
    refine ⟨⟨?_, ?_, ?_, ?_⟩, ⟨?_, ?_, ?_, ?_⟩⟩
    · simp only [GLBuffer.new, hg, ne_eq, not_false_eq_true, if_true]
      rw [(key _ _).2]
      simp [Heap.ref, GLObject.name]
    · simp [GLBuffer.new, hg, GLObjectReleaser.watch_calls, GLBuffer.bind]
    · simp only [GLBuffer.new, hg, ne_eq, not_false_eq_true, if_true]
      rw [(key _ _).1]
      refine ⟨_, rfl, ?_⟩
      simp [List.count_append, hcount]
    · intro c hc
      simp only [GLBuffer.new, hg, ne_eq, not_false_eq_true, if_true]
      rw [GLObjectReleaser.watch_buf_other _ _ _ _ hc]
    · simp only [GLTexture.new, hg, ne_eq, not_false_eq_true, if_true]
      rw [(key _ _).2]
      simp [Heap.ref, GLObject.name]
    · simp [GLTexture.new, hg, GLObjectReleaser.watch_calls, GLTexture.bind]
    · simp only [GLTexture.new, hg, ne_eq, not_false_eq_true, if_true]
      rw [(key _ _).1]
      refine ⟨_, rfl, ?_⟩
      simp [List.count_append, hcount]
    · intro c hc
      simp only [GLTexture.new, hg, ne_eq, not_false_eq_true, if_true]
      rw [GLObjectReleaser.watch_buf_other _ _ _ _ hc]

/-- C11 at concrete inputs: a buffer constructed at address 5 under context 0 in a world
without releasers, once with the device leaving `~0` and once with the name 42. -/
theorem construction_registers_valid_only_witness :
    (∀ c rel, (emptyWorld threeBuffers)._buf c = some rel → 5 ∉ rel._objects) ∧
    ((GLBuffer.new (emptyWorld threeBuffers) 5 34962 0 exampleLabel NO_NAME).calls =
        [GLCall.glGenBuffers] ∧
      (GLBuffer.new (emptyWorld threeBuffers) 5 34962 0 exampleLabel NO_NAME)._buf 0 = none) ∧
    ((GLBuffer.new (emptyWorld threeBuffers) 5 34962 0 exampleLabel 42).calls =
        [GLCall.glGenBuffers, GLCall.glBindBuffer 34962 42,
          GLCall.debugObjectLabel GL_BUFFER 42 exampleLabel] ∧
      (GLBuffer.new (emptyWorld threeBuffers) 5 34962 0 exampleLabel 42)._buf 0 =
        some ⟨[5], []⟩ ∧
      ((GLBuffer.new (emptyWorld threeBuffers) 5 34962 0 exampleLabel 42).heap 5).name = 42) := by
  have hfresh : ∀ c rel, (emptyWorld threeBuffers)._buf c = some rel → 5 ∉ rel._objects := by
    intro c rel h
    simp [emptyWorld] at h
  have hbad := (construction_registers_valid_only (emptyWorld threeBuffers) 5 34962 0
    exampleLabel NO_NAME hfresh).1 rfl
  have hgood := (construction_registers_valid_only (emptyWorld threeBuffers) 5 34962 0
    exampleLabel 42 hfresh).2 (by decide)
  refine ⟨hfresh, ⟨hbad.1.2.1, ?_⟩, ⟨hgood.1.2.1, by decide, hgood.1.1⟩⟩
  rw [hbad.1.2.2.1]
  rfl

/-- C12 as stated fails: in the default build, watching an object that has no extensions
object creates the releaser of the context, attaches it and tracks the object; the
graphics-object-manager build leaves the same world without a releaser. -/
theorem watch_without_extensions_registers :
    (noExtObjects 0)._ext = none ∧ (emptyWorld noExtObjects)._buf 0 = none ∧
    (GLObjectReleaser.watch (emptyWorld noExtObjects) 0 0)._buf 0 = some ⟨[0], []⟩ ∧
    (GLObjectReleaser.watch (emptyWorld noExtObjects) 0 0).operations 0 =
      [Operation.releaser 0] ∧
    (GLObjectReleaser.watchGOM (emptyWorld noExtObjects) (some 0))._buf 0 = none := by
  decide

/-- What `watch` of the graphics-object-manager build does for an object whose
extensions object belongs to context `c`: an object the releaser of `c` holds changes
nothing, any other object is appended to its tracked set. -/
theorem GLObjectReleaser.watchGOM_some (w : World) (obj c : Nat)
    (hext : (w.heap obj)._ext = some c) :
    (∀ rel, w._buf c = some rel → obj ∈ rel._objects →
      (GLObjectReleaser.watchGOM w (some obj))._buf = w._buf ∧
      (GLObjectReleaser.watchGOM w (some obj)).heap = w.heap) ∧
    ((∀ rel, w._buf c = some rel → obj ∉ rel._objects) →
      (GLObjectReleaser.watchGOM w (some obj))._buf c =
        some { _objects := (w.releaser c)._objects ++ [obj], _temp := (w.releaser c)._temp } ∧
      (GLObjectReleaser.watchGOM w (some obj)).heap = w.heap.ref obj) ∧
    (∀ c2, c2 ≠ c → (GLObjectReleaser.watchGOM w (some obj))._buf c2 = w._buf c2) ∧
    (GLObjectReleaser.watchGOM w (some obj)).operations = w.operations ∧
    (GLObjectReleaser.watchGOM w (some obj)).calls = w.calls := by
  refine ⟨?_, ?_, ?_, ?_, ?_⟩
  · intro rel hb hmem
    constructor
    · simp only [GLObjectReleaser.watchGOM, hext, osgGet, hb, refSetInsert, hmem, if_true]
      rw [← hb]
      exact Function.update_eq_self _ _
    · simp [GLObjectReleaser.watchGOM, hext, osgGet, hb, refSetInsert, hmem]
  · intro hnew
    cases hb : w._buf c with
    | none => simp [GLObjectReleaser.watchGOM, hext, osgGet, hb, refSetInsert, World.releaser]
    | some rel =>
      have hn := hnew rel hb
      simp [GLObjectReleaser.watchGOM, hext, osgGet, hb, refSetInsert, World.releaser, hn]
  · intro c2 hc2
    cases hb : w._buf c <;>
      simp [GLObjectReleaser.watchGOM, hext, osgGet, hb, Function.update_noteq hc2]
  · cases hb : w._buf c <;> simp [GLObjectReleaser.watchGOM, hext, osgGet, hb]
  · cases hb : w._buf c <;> simp [GLObjectReleaser.watchGOM, hext, osgGet, hb]

/-- C12, amended: `watch` of the default build registers the object in the tracked set
of the releaser of the context, which then holds it exactly once; when the context had
no releaser, one is created, holding the object alone, and added to the operations of
the context; when it had one, no operation is added, an object already tracked changes
nothing, and an untracked object is appended; other contexts are unchanged.  `watch` of
the graphics-object-manager build changes nothing for a null object and for an object
without an extensions object; for an object whose extensions belong to context `c` the
releaser of `c` afterwards holds it exactly once, an object already tracked changes
nothing, and other contexts and the operations are unchanged. -/
theorem watch_registers (w : World) (obj contextID : Nat)
    (hset : ∀ rel, w._buf contextID = some rel → rel._objects.Nodup) :
    (∃ rel2, (GLObjectReleaser.watch w obj contextID)._buf contextID = some rel2 ∧
      rel2._objects.count obj = 1) ∧
    (w._buf contextID = none →
      (GLObjectReleaser.watch w obj contextID)._buf contextID = some ⟨[obj], []⟩ ∧
      (GLObjectReleaser.watch w obj contextID).operations contextID =
        w.operations contextID ++ [Operation.releaser contextID]) ∧
    (∀ rel, w._buf contextID = some rel →
      (GLObjectReleaser.watch w obj contextID).operations = w.operations ∧
      (obj ∈ rel._objects →
        (GLObjectReleaser.watch w obj contextID)._buf = w._buf ∧
        (GLObjectReleaser.watch w obj contextID).heap = w.heap) ∧
      (obj ∉ rel._objects →
        (GLObjectReleaser.watch w obj contextID)._buf contextID =
          some { rel with _objects := rel._objects ++ [obj] })) ∧
    (∀ c, c ≠ contextID → (GLObjectReleaser.watch w obj contextID)._buf c = w._buf c) ∧
    (GLObjectReleaser.watchGOM w none = w ∧
      ((w.heap obj)._ext = none → GLObjectReleaser.watchGOM w (some obj) = w)) ∧
    ((w.heap obj)._ext = some contextID →
      (∃ rel2, (GLObjectReleaser.watchGOM w (some obj))._buf contextID = some rel2 ∧
        obj ∈ rel2._objects ∧ rel2._objects.count obj = 1) ∧
      (∀ rel, w._buf contextID = some rel → obj ∈ rel._objects →
        (GLObjectReleaser.watchGOM w (some obj))._buf = w._buf ∧
        (GLObjectReleaser.watchGOM w (some obj)).heap = w.heap) ∧
      (∀ rel, w._buf contextID = some rel → obj ∉ rel._objects →
        (GLObjectReleaser.watchGOM w (some obj))._buf contextID =
          some { rel with _objects := rel._objects ++ [obj] }) ∧
      (∀ c, c ≠ contextID → (GLObjectReleaser.watchGOM w (some obj))._buf c = w._buf c) ∧
      (GLObjectReleaser.watchGOM w (some obj)).operations = w.operations) := by
  refine ⟨?_, ?_, ?_, ?_, ⟨rfl, ?_⟩, ?_⟩
  · cases hb : w._buf contextID with
    | none =>
      exact ⟨⟨[obj], []⟩, by simp [GLObjectReleaser.watch, hb, refSetInsert], by simp⟩
    | some rel =>
      by_cases hmem : obj ∈ rel._objects
      · refine ⟨rel, ?_, List.count_eq_one_of_mem (hset rel hb) hmem⟩
        rw [(GLObjectReleaser.watch_tracked w obj contextID rel hb hmem).1, hb]
      · refine ⟨{ rel with _objects := rel._objects ++ [obj] }, ?_, ?_⟩
        · simp [GLObjectReleaser.watch, hb, refSetInsert, hmem]
        · simp [List.count_append, List.count_eq_zero_of_not_mem hmem]
  · intro hb
    constructor
    · simp [GLObjectReleaser.watch, hb, refSetInsert]
    · simp [GLObjectReleaser.watch, hb]
  · intro rel hb
    refine ⟨by simp [GLObjectReleaser.watch, hb], ?_, ?_⟩
    · intro hmem
      have h3 := GLObjectReleaser.watch_tracked w obj contextID rel hb hmem
      exact ⟨h3.1, h3.2.1⟩
    · intro hmem
      simp [GLObjectReleaser.watch, hb, refSetInsert, hmem]
  · intro c hc
    exact GLObjectReleaser.watch_buf_other w obj contextID c hc
  · intro hext
    simp [GLObjectReleaser.watchGOM, hext]
  · intro hext
    have key := GLObjectReleaser.watchGOM_some w obj contextID hext
    refine ⟨?_, key.1, ?_, key.2.2.1, key.2.2.2.1⟩
    · cases hb : w._buf contextID with
      | none =>
        have h2 := (key.2.1 (by simp [hb])).1
        rw [h2]
        exact ⟨_, rfl, by simp, by simp [World.releaser, hb]⟩
      | some rel =>
        by_cases hmem : obj ∈ rel._objects
        · refine ⟨rel, ?_, hmem, List.count_eq_one_of_mem (hset rel hb) hmem⟩
          rw [(key.1 rel hb hmem).1, hb]
        · have hnew : ∀ r, w._buf contextID = some r → obj ∉ r._objects := by
            intro r hr
            rw [hb] at hr
            cases hr
            exact hmem
          rw [(key.2.1 hnew).1]
          refine ⟨_, rfl, by simp, ?_⟩
          simp [World.releaser, hb, List.count_append, List.count_eq_zero_of_not_mem hmem]
    · intro rel hb hmem
      have hnew : ∀ r, w._buf contextID = some r → obj ∉ r._objects := by
        intro r hr
        rw [hb] at hr
        cases hr
        exact hmem
      rw [(key.2.1 hnew).1]
      simp [World.releaser, hb]

/-- C12, amended, at a concrete input: the third of the three watched buffers is watched
again, with each build; it is still tracked once and nothing has changed. -/
theorem watch_registers_witness :
    (∀ rel, threeWatched._buf 0 = some rel → rel._objects.Nodup) ∧
    (threeWatched.heap 2)._ext = some 0 ∧
    (GLObjectReleaser.watch threeWatched 2 0)._buf 0 = some ⟨[0, 1, 2], []⟩ ∧
    (GLObjectReleaser.watch threeWatched 2 0).operations 0 = [Operation.releaser 0] ∧
    ((GLObjectReleaser.watch threeWatched 2 0).heap 2).referenceCount = 1 ∧
    (GLObjectReleaser.watchGOM threeWatched (some 2))._buf 0 = some ⟨[0, 1, 2], []⟩ ∧
    ((GLObjectReleaser.watchGOM threeWatched (some 2)).heap 2).referenceCount = 1 := by
  have hb : threeWatched._buf 0 = some ⟨[0, 1, 2], []⟩ := by decide
  have hset : ∀ rel, threeWatched._buf 0 = some rel → rel._objects.Nodup := by
    intro rel h
    rw [hb] at h
    cases h
    decide
  have hext : (threeWatched.heap 2)._ext = some 0 := by decide
  have key := (watch_registers threeWatched 2 0 hset).2.2.1 ⟨[0, 1, 2], []⟩ hb
  have hsame := key.2.1 (by decide)
  have gom := ((watch_registers threeWatched 2 0 hset).2.2.2.2.2 hext).2.1
    ⟨[0, 1, 2], []⟩ hb (by decide)
  refine ⟨hset, hext, ?_, ?_, ?_, ?_, ?_⟩
  · rw [hsame.1, hb]
  · rw [key.1]
    decide
  · rw [hsame.2]
    decide
  · rw [gom.1, hb]
  · rw [gom.2]
    decide

/-! ## Style groups -/

theorem addToFirstNamed_eq_none (name : String) (feature : Feature) (map : StyleToFeatures) :
    addToFirstNamed name feature map = none ↔ ∀ g ∈ map, g.1.name ≠ name := by
  induction map with
  | nil => simp [addToFirstNamed]
  | cons g rest ih =>
    by_cases hg : g.1.name = name
    · simp [addToFirstNamed, hg]
    · simp [addToFirstNamed, hg, ih]

theorem addToFirstNamed_eq_some (name : String) (feature : Feature) :
    ∀ (map m2 : StyleToFeatures), addToFirstNamed name feature map = some m2 →
      ∃ pre g post, map = pre ++ g :: post ∧ (∀ x ∈ pre, x.1.name ≠ name) ∧
        g.1.name = name ∧ m2 = pre ++ (g.1, g.2 ++ [feature]) :: post := by
  intro map
  induction map with
  | nil => intro m2 h; simp [addToFirstNamed] at h
  | cons g rest ih =>
    intro m2 h
    by_cases hg : g.1.name = name
    · simp only [addToFirstNamed, hg, if_true, Option.some.injEq] at h
      exact ⟨[], g, rest, rfl, by simp, hg, by simp [← h]⟩
    · cases hr : addToFirstNamed name feature rest with
      | none => simp [addToFirstNamed, hg, hr] at h
      | some m3 =>
        simp only [addToFirstNamed, hg, if_false, hr, Option.map_some', Option.some.injEq] at h
        obtain ⟨pre, g2, post, hsplit, hpre, hg2, hm3⟩ := ih m3 hr
        refine ⟨g :: pre, g2, post, by simp [hsplit], ?_, hg2, by simp [← h, hm3]⟩
        intro x hx
        rcases List.mem_cons.mp hx with rfl | hx2
        · exact hg
        · exact hpre x hx2

theorem featureCount_append (a b : StyleToFeatures) :
    featureCount (a ++ b) = featureCount a + featureCount b := by
  simp [featureCount, List.sum_append]

theorem groupNames_append (a b : StyleToFeatures) :
    groupNames (a ++ b) = groupNames a ++ groupNames b := by
  simp [groupNames]

/-- What `addFeatureToMap` returns: the feature joins the first group of the same name
when the style has a name and such a group exists, else a new group is pushed. -/
theorem addFeatureToMap_cases (feature : Feature) (style : Style) (map : StyleToFeatures) :
    (style.name ≠ "" ∧ (∃ g ∈ map, g.1.name = style.name) ∧
      ∃ pre g post, map = pre ++ g :: post ∧ (∀ x ∈ pre, x.1.name ≠ style.name) ∧
        g.1.name = style.name ∧
        addFeatureToMap feature style map = pre ++ (g.1, g.2 ++ [feature]) :: post) ∨
    (¬(style.name ≠ "" ∧ ∃ g ∈ map, g.1.name = style.name) ∧
      addFeatureToMap feature style map = map ++ [(style, [feature])]) := by
  by_cases hn : style.name = ""
  · right
    exact ⟨fun h => h.1 hn, by simp [addFeatureToMap, hn]⟩
  · cases hr : addToFirstNamed style.name feature map with
    | none =>
      right
      have hnone := (addToFirstNamed_eq_none style.name feature map).mp hr
      refine ⟨?_, by simp [addFeatureToMap, hn, hr]⟩
      rintro ⟨_, g, hg, hname⟩
      exact hnone g hg hname
    | some m2 =>
      left
      obtain ⟨pre, g, post, hsplit, hpre, hg, hm2⟩ :=
        addToFirstNamed_eq_some style.name feature map m2 hr
      refine ⟨hn, ⟨g, by simp [hsplit], hg⟩, pre, g, post, hsplit, hpre, hg, ?_⟩
      simp [addFeatureToMap, hn, hr, hm2]

theorem addFeatureToMap_grouped (feature : Feature) (style : Style) (map : StyleToFeatures)
    (hinv : GroupedByName map) : GroupedByName (addFeatureToMap feature style map) := by
  rcases addFeatureToMap_cases feature style map with
    ⟨hn, _, pre, g, post, hsplit, _, hg, hres⟩ | ⟨hno, hres⟩
  · rw [hres]
    subst hsplit
    refine ⟨?_, ?_⟩
    · have := hinv.1
      simpa [groupNames] using this
    · intro x hx hx0
      rcases List.mem_append.mp hx with h1 | h1
      · exact hinv.2 x (List.mem_append_left _ h1) hx0
      · rcases List.mem_cons.mp h1 with rfl | h2
        · exact absurd (hg ▸ hx0) hn
        · exact hinv.2 x (List.mem_append_right _ (List.mem_cons_of_mem _ h2)) hx0
  · rw [hres]
    refine ⟨?_, ?_⟩
    · rw [groupNames_append]
      by_cases hn : style.name = ""
      · have hnil : groupNames [(style, [feature])] = [] := by simp [groupNames, hn]
        rw [hnil, List.append_nil]
        exact hinv.1
      · have hone : groupNames [(style, [feature])] = [style.name] := by
          simp [groupNames, hn]
        rw [hone]
        refine List.nodup_append.mpr ⟨hinv.1, List.nodup_singleton _, ?_⟩
        intro a ha hb
        rw [List.mem_singleton] at hb
        subst hb
        simp only [groupNames, List.mem_filter, List.mem_map] at ha
        obtain ⟨⟨g, hg, hgn⟩, _⟩ := ha
        exact hno ⟨hn, g, hg, hgn⟩
    · intro x hx hx0
      rcases List.mem_append.mp hx with h1 | h1
      · exact hinv.2 x h1 hx0
      · rw [List.mem_singleton] at h1
        subst h1
        rfl

theorem addAllToMap_grouped (adds : List (Feature × Style)) :
    ∀ map : StyleToFeatures, GroupedByName map → GroupedByName (addAllToMap adds map) := by
  induction adds with
  | nil => intro map h; exact h
  | cons fs rest ih =>
    intro map h
    exact ih _ (addFeatureToMap_grouped fs.1 fs.2 map h)

/-- C16: `addFeatureToMap` groups features by style name.  Each call adds the feature
once: the number of grouped features grows by one; when the style has a name and some
group has a style of that name, the feature is pushed at the back of the first such
group, every other group and the order of groups being kept; otherwise one new group
with the style and the feature alone is pushed at the back.  The call keeps the property
that no two groups share a non-empty name and that a group without a name holds one
feature, so every list built from the empty one has it. -/
theorem addFeatureToMap_groups_by_name (map : StyleToFeatures) (feature : Feature)
    (style : Style) (adds : List (Feature × Style)) :
    featureCount (addFeatureToMap feature style map) = featureCount map + 1 ∧
    ((style.name ≠ "" ∧ ∃ g ∈ map, g.1.name = style.name) →
      ∃ pre g post, map = pre ++ g :: post ∧ (∀ x ∈ pre, x.1.name ≠ style.name) ∧
        g.1.name = style.name ∧
        addFeatureToMap feature style map = pre ++ (g.1, g.2 ++ [feature]) :: post) ∧
    (¬(style.name ≠ "" ∧ ∃ g ∈ map, g.1.name = style.name) →
      addFeatureToMap feature style map = map ++ [(style, [feature])]) ∧
    (GroupedByName map → GroupedByName (addFeatureToMap feature style map)) ∧
    GroupedByName (addAllToMap adds []) := by
  refine ⟨?_, ?_, ?_, addFeatureToMap_grouped feature style map,
    addAllToMap_grouped adds [] ⟨by simp [groupNames], by simp⟩⟩
  · rcases addFeatureToMap_cases feature style map with
      ⟨_, _, pre, g, post, hsplit, _, _, hres⟩ | ⟨_, hres⟩
    · rw [hres, hsplit]
      simp only [featureCount, List.map_append, List.map_cons, List.sum_append, List.sum_cons,
        List.length_append, List.length_singleton]
      omega
    · rw [hres, featureCount_append]
      simp [featureCount]
  · intro hyes
    rcases addFeatureToMap_cases feature style map with ⟨_, _, hex⟩ | ⟨hno, _⟩
    · exact hex
    · exact absurd hyes hno
  · intro hno
    rcases addFeatureToMap_cases feature style map with ⟨hn, hg, _⟩ | ⟨_, hres⟩
    · exact absurd ⟨hn, hg⟩ hno
    · exact hres

/-- C16 at concrete inputs: a feature with a style named "road" joins the group of that
name, and a feature with an unnamed style gets a new group although an unnamed group
exists. -/
theorem addFeatureToMap_groups_by_name_witness :
    GroupedByName twoGroups ∧
    addFeatureToMap 7 ⟨"road", 5⟩ twoGroups = [(⟨"road", 0⟩, [1, 7]), (⟨"", 1⟩, [2])] ∧
    addFeatureToMap 8 ⟨"", 1⟩ twoGroups =
      [(⟨"road", 0⟩, [1]), (⟨"", 1⟩, [2]), (⟨"", 1⟩, [8])] ∧
    featureCount (addFeatureToMap 7 ⟨"road", 5⟩ twoGroups) = featureCount twoGroups + 1 ∧
    GroupedByName (addFeatureToMap 7 ⟨"road", 5⟩ twoGroups) := by
  have hinv : GroupedByName twoGroups := by
    refine ⟨by decide, ?_⟩
    intro g hg h0
    simp only [twoGroups, List.mem_cons, List.mem_singleton, List.not_mem_nil, or_false] at hg
    rcases hg with rfl | rfl
    · exact absurd h0 (by decide)
    · rfl
  have key := addFeatureToMap_groups_by_name twoGroups 7 ⟨"road", 5⟩ []
  have key2 := addFeatureToMap_groups_by_name twoGroups 8 ⟨"", 1⟩ []
  refine ⟨hinv, by decide, ?_, key.1, key.2.2.2.1 hinv⟩
  exact key2.2.2.1 (fun h => h.1 rfl)

end OsgEarth
